import Mathlib

/-!
# Verification of the SeemTo7 catalog inventory engine

A shallow embedding of the inventory-synchronisation core of
`src/catalog/models.py` (Django models `Collection`, `CollectionSizeTemplate`,
`ApparelItem`, `ApparelItemSizeInventory`, `ApparelUnit`) and of the lookup
endpoint in `src/catalog/views.py`.

The database is modelled as an explicit state `St` holding the rows of each
table as lists; every mutating method of the source becomes a function
`St → St` (or `St → Except Err St` where the source can raise).  Machine
integers of the source are `Nat`; `NULL`able columns are `Option`; the
`secrets.token_hex(4).upper()` random source is modelled as a stream of
pending outputs carried in the state.  Django row ids are `Nat`s handed out
by a monotone counter, so id order coincides with creation order, exactly as
the `AutoField` pk / `auto_now_add` pair does in the source; the source's
`order_by("-id")` is therefore "most recently created first".

The `qr_code_url` column and its maintenance write in `ApparelUnit.save`
(`_build_qr_url`, a pure function of the immutable `access_code`) are
omitted: the column is derived, write-once-per-unit, and read by nothing
modelled here.

A `writes` counter in the state counts row-mutating statements actually
affecting at least one row (INSERT, UPDATE with a non-empty field set,
DELETE removing n rows counts n), mirroring where the source calls
`save`, `create`, `update` or `delete`.
-/

namespace SeemTo7

/-- `SizeChoices`: the fixed clothing-size enumeration of the source. -/
inductive Size where
  | XS | S | M | L | XL | XXL
deriving DecidableEq, Repr

/-- The sizes in the lexicographic order of their string labels
(`"L" < "M" < "S" < "XL" < "XS" < "XXL"`), which is the iteration order of
`CollectionSizeTemplate` querysets under `Meta.ordering = ("collection", "size")`. -/
def sizeOrder : List Size := [.L, .M, .S, .XL, .XS, .XXL]

/-- One `CollectionSizeTemplate` row: `(collection, size)` unique, `quantity ≥ 0`. -/
structure SizeTemplate where
  collectionId : Nat
  size : Size
  quantity : Nat
deriving DecidableEq, Repr

/-- One `ApparelItem` row (only the columns the inventory engine reads). -/
structure Item where
  id : Nat
  collectionId : Nat
deriving DecidableEq, Repr

/-- One `ApparelUnit` row.  `owner` is the nullable foreign key `owner_id`
(Django user pks are ≥ 1, so the source's truthiness test on `owner_id` is
`isSome` here); `assignedAt` is the nullable `assigned_at` timestamp, an
abstract instant. -/
structure ApparelUnit where
  id : Nat
  itemId : Nat
  size : Size
  accessCode : String
  owner : Option Nat
  assignedAt : Option Nat
deriving DecidableEq, Repr

/-- One `ApparelItemSizeInventory` row: `(item, size)` unique. -/
structure InvRow where
  itemId : Nat
  size : Size
  quantity_initial : Nat
  quantity_remaining : Nat
deriving DecidableEq, Repr

/-- The database state, plus the pending outputs of the random source and a
counter of row-mutating statements. -/
structure St where
  items : List Item
  templates : List SizeTemplate
  units : List ApparelUnit
  inventories : List InvRow
  nextUnitId : Nat
  rng : List String
  writes : Nat
deriving DecidableEq, Repr

/-- The error taxonomy of the modelled code paths: `configurationError` is
the `ValidationError` raised by `ApparelItem.clean`, `uniquenessConflict`
the `IntegrityError` of the `access_code` unique constraint,
`notFound` the missing-row signal (`DoesNotExist` / HTTP 404). -/
inductive Err where
  | configurationError
  | uniquenessConflict
  | notFound
deriving DecidableEq, Repr

deriving instance DecidableEq for Except

/-- Replace the first element satisfying `p` (a Django `UPDATE ... WHERE pk = _`
on the row an earlier `get`/`get_or_create` found). -/
def replaceFirst (p : α → Bool) (f : α → α) : List α → List α
  | [] => []
  | x :: xs => if p x then f x :: xs else x :: replaceFirst p f xs

/-- Remove the first element satisfying `p` (a Django `DELETE ... WHERE pk = _`). -/
def removeFirst (p : α → Bool) : List α → List α
  | [] => []
  | x :: xs => if p x then xs else x :: removeFirst p xs

/-- The `(item, size)` key test on units. -/
def keyU (i : Nat) (z : Size) (u : ApparelUnit) : Bool :=
  decide (u.itemId = i ∧ u.size = z)

/-- The `(item, size)` key test on inventory rows. -/
def keyR (i : Nat) (z : Size) (r : InvRow) : Bool :=
  decide (r.itemId = i ∧ r.size = z)

/-- The pk test on units. -/
def byId (uid : Nat) (u : ApparelUnit) : Bool := decide (u.id = uid)

/-- `owner__isnull=True`. -/
def unowned (u : ApparelUnit) : Bool := decide (u.owner = none)

@[simp] theorem keyU_eq_true {i z u} : keyU i z u = true ↔ (u.itemId = i ∧ u.size = z) := by
  simp [keyU]

@[simp] theorem keyR_eq_true {i z r} : keyR i z r = true ↔ (r.itemId = i ∧ r.size = z) := by
  simp [keyR]

@[simp] theorem byId_eq_true {uid u} : byId uid u = true ↔ u.id = uid := by
  simp [byId]

@[simp] theorem unowned_eq_true {u} : unowned u = true ↔ u.owner = none := by
  simp [unowned]

/-- `self.units.filter(size=size)` scoped to one item: the units at a key. -/
def unitsOf (s : St) (i : Nat) (z : Size) : List ApparelUnit :=
  s.units.filter (keyU i z)

/-- `self.units.filter(size=size).count()`. -/
def countUnits (s : St) (i : Nat) (z : Size) : Nat :=
  (unitsOf s i z).length

/-- `self.units.filter(size=size, owner__isnull=True).count()`. -/
def countUnowned (s : St) (i : Nat) (z : Size) : Nat :=
  ((unitsOf s i z).filter unowned).length

/-- The `ApparelItemSizeInventory` row at a key, if any. -/
def findRow (s : St) (i : Nat) (z : Size) : Option InvRow :=
  s.inventories.find? (keyR i z)

/-- The `(quantity_initial, quantity_remaining)` pair stored at a key. -/
def invVals (s : St) (i : Nat) (z : Size) : Option (Nat × Nat) :=
  (findRow s i z).map fun r => (r.quantity_initial, r.quantity_remaining)

/-- `ApparelItem.refresh_inventory_for_size` (`models.py` 143-170): recompute
one size's inventory row from the actual units.  If no unit of the size
remains the row is deleted; otherwise the row is created with, or updated
to, the ground-truth `(total, remaining)` counts, writing only when a
stored field differs. -/
def refresh_inventory_for_size (s : St) (i : Nat) (z : Size) : St :=
  let total := countUnits s i z
  let remaining := countUnowned s i z
  if total = 0 then
    let removed := (s.inventories.filter (keyR i z)).length
    { s with inventories := s.inventories.filter (fun r => !(keyR i z r)),
             writes := s.writes + removed }
  else
    match findRow s i z with
    | none =>
        { s with inventories := s.inventories ++ [⟨i, z, total, remaining⟩],
                 writes := s.writes + 1 }
    | some r =>
        if r.quantity_initial = total ∧ r.quantity_remaining = remaining then s
        else
          { s with
              inventories := replaceFirst (keyR i z)
                (fun r0 => { r0 with quantity_initial := total,
                                     quantity_remaining := remaining })
                s.inventories,
              writes := s.writes + 1 }

/-- The collection's templates in queryset order: with `(collection, size)`
unique, iterating the size labels in `Meta.ordering` order and picking the
collection's template for each is exactly
`self.collection.size_templates.all()` (and the insertion order of the
`templates` dict built from it). -/
def templatesFor (s : St) (c : Nat) : List SizeTemplate :=
  sizeOrder.filterMap fun z =>
    s.templates.find? fun t => decide (t.collectionId = c ∧ t.size = z)

/-- One iteration of the first loop of
`ApparelItem._sync_inventory_from_collection` (`models.py` 181-199): for the
template `(size, quantity)`, update the existing inventory row
(`quantity_initial := quantity`; clamp `quantity_remaining` down to
`quantity` when it exceeds it), saving only when a field changed, or create
a missing row with `quantity_initial = quantity_remaining = quantity`. -/
def sync_inventory_one (s : St) (i : Nat) (z : Size) (q : Nat) : St :=
  match findRow s i z with
  | some stock =>
      if stock.quantity_initial ≠ q ∨ stock.quantity_remaining > q then
        { s with
            inventories := replaceFirst (keyR i z)
              (fun r0 => { r0 with
                  quantity_initial := q,
                  quantity_remaining :=
                    if r0.quantity_remaining > q then q else r0.quantity_remaining })
              s.inventories,
            writes := s.writes + 1 }
      else s
  | none =>
      { s with inventories := s.inventories ++ [⟨i, z, q, q⟩],
               writes := s.writes + 1 }

/-- `ApparelItem._sync_inventory_from_collection` (`models.py` 172-203):
update/create a row per template, then delete the item's rows whose size is
absent from the templates.  The source iterates a snapshot of the rows taken
before the loop; since the loop never creates a row for a non-template size
and never changes a row's size, deleting from the current rows is the same. -/
def sync_inventory_from_collection (s : St) (it : Item) : St :=
  let tpls := templatesFor s it.collectionId
  let s1 := tpls.foldl (fun acc t => sync_inventory_one acc it.id t.size t.quantity) s
  let isTpl : Size → Bool := fun z => tpls.any fun t => decide (t.size = z)
  let stale : InvRow → Bool := fun r => decide (r.itemId = it.id) && !(isTpl r.size)
  let removed := (s1.inventories.filter stale).length
  { s1 with inventories := s1.inventories.filter (fun r => !(stale r)),
            writes := s1.writes + removed }

/-- `ApparelUnit.objects.create(item=self, size=size)`: construct the unit
(the `access_code` field default calls `generate_access_code`, i.e. consumes
the next output of the random source), then run the creating path of
`ApparelUnit.save` (`models.py` 327-363): INSERT — under the global unique
constraint on `access_code`, a duplicate raises `IntegrityError`; the new
unit is unowned so the `assigned_at` bookkeeping leaves `None`; finally
refresh the inventory row of the unit's size. -/
def unit_insert (s : St) (i : Nat) (z : Size) : Except Err St :=
  let code := s.rng.headD ""
  let s0 := { s with rng := s.rng.tail }
  if s0.units.any (fun u => decide (u.accessCode = code)) then
    .error .uniquenessConflict
  else
    let u : ApparelUnit := ⟨s0.nextUnitId, i, z, code, none, none⟩
    let s1 := { s0 with units := s0.units ++ [u],
                        nextUnitId := s0.nextUnitId + 1,
                        writes := s0.writes + 1 }
    .ok (refresh_inventory_for_size s1 i z)

/-- The `for _ in range(missing): ApparelUnit.objects.create(...)` loop of
`ApparelItem._ensure_units_from_templates` (`models.py` 216-218). -/
def create_units (s : St) (i : Nat) (z : Size) : Nat → Except Err St
  | 0 => .ok s
  | n + 1 => do
      let s1 ← unit_insert s i z
      create_units s1 i z n

/-- `self.units.filter(size=size, owner__isnull=True).order_by("-id")`: the
unowned units of a key, most recently created (largest id) first. -/
def unownedDescById (s : St) (i : Nat) (z : Size) : List ApparelUnit :=
  ((unitsOf s i z).filter unowned).insertionSort fun a b => b.id ≤ a.id

instance : IsTotal ApparelUnit fun a b => b.id ≤ a.id :=
  ⟨fun a b => Nat.le_total b.id a.id⟩

instance : IsTrans ApparelUnit fun a b => b.id ≤ a.id :=
  ⟨fun _ _ _ hab hbc => Nat.le_trans hbc hab⟩

/-- `removable.values_list("id", flat=True)` for a downsize of `k`: the pks
of the first `k` unowned units in most-recently-created-first order. -/
def removableIdsOf (s : St) (i : Nat) (z : Size) (k : Nat) : List Nat :=
  ((unownedDescById s i z).take k).map (·.id)

/-- `if removable_ids: ApparelUnit.objects.filter(id__in=removable_ids).delete()`
(`models.py` 225-226): one bulk DELETE of the rows whose pk is in the list,
bypassing `ApparelUnit.delete`, skipped when the list is empty. -/
def deleteState (s : St) (R : List Nat) : St :=
  if R.isEmpty then s
  else { s with units := s.units.filter fun u => !(decide (u.id ∈ R)),
                writes := s.writes + R.length }

/-- One iteration of the template loop of
`ApparelItem._ensure_units_from_templates` (`models.py` 213-227): create the
missing units when `existing < quantity`; when `existing > quantity` delete
up to the difference among the unowned units, most recently created first;
then refresh the size's inventory row. -/
def ensure_units_one (s : St) (i : Nat) (z : Size) (q : Nat) : Except Err St := do
  let existing := countUnits s i z
  let s1 ←
    if existing < q then
      create_units s i z (q - existing)
    else if q < existing then
      .ok (deleteState s (removableIdsOf s i z (existing - q)))
    else pure s
  .ok (refresh_inventory_for_size s1 i z)

/-- The trailing `extra_sizes` body of
`ApparelItem._ensure_units_from_templates` (`models.py` 232-236): delete all
unowned units of a size no template mentions, then refresh its row. -/
def delete_extra_size (s : St) (i : Nat) (z : Size) : St :=
  let removable := (unitsOf s i z).filter unowned
  let s1 :=
    if removable.isEmpty then s
    else { s with units := s.units.filter fun u => !(keyU i z u && unowned u),
                  writes := s.writes + removable.length }
  refresh_inventory_for_size s1 i z

/-- `ApparelItem._ensure_units_from_templates` (`models.py` 205-236): the
template loop followed by the `extra_sizes` pass over the sizes having units
but no template.  The source iterates that set of sizes in Python's
unspecified set order; the per-size bodies touch disjoint units and rows, so
the fixed label order used here reaches the same state. -/
def ensure_units_from_templates (s : St) (it : Item) : Except Err St := do
  let tpls := templatesFor s it.collectionId
  let s1 ← tpls.foldlM (fun acc t => ensure_units_one acc it.id t.size t.quantity) s
  let tplSizes : List Size := tpls.map (·.size)
  let extra := sizeOrder.filter fun z =>
    decide (z ∉ tplSizes) && !(unitsOf s1 it.id z).isEmpty
  .ok (extra.foldl (fun acc z => delete_extra_size acc it.id z) s1)

/-- `super().save()` inside `ApparelItem.save`: INSERT the item row, or
UPDATE it when the pk already exists. -/
def item_row_save (s : St) (it : Item) : St :=
  if s.items.any (fun j => decide (j.id = it.id)) then
    { s with items := replaceFirst (fun j => decide (j.id = it.id)) (fun _ => it) s.items,
             writes := s.writes + 1 }
  else
    { s with items := s.items ++ [it], writes := s.writes + 1 }

/-- `ApparelItem.save` (`models.py` 117-123): `full_clean` runs
`ApparelItem.clean` (`models.py` 106-115), which rejects an item whose
collection defines no size templates before anything is written; then the
row is persisted, inventories are synced from the templates, and units are
reconciled. -/
def item_save (s : St) (it : Item) : Except Err St :=
  if (templatesFor s it.collectionId).isEmpty then
    .error .configurationError
  else do
    let s1 := item_row_save s it
    let s2 := sync_inventory_from_collection s1 it
    ensure_units_from_templates s2 it

/-- The `assigned_at` bookkeeping of `ApparelUnit.save` (`models.py`
347-352): stamp the current instant when an owner is newly attached, clear
when the owner is removed, otherwise keep the stored value (the field is
read-only on the public surface, so the in-memory instance holds the stored
value). -/
def assignedAtAfter (previous : ApparelUnit) (newOwner : Option Nat)
    (now : Nat) : Option Nat :=
  if newOwner.isSome ∧ newOwner ≠ previous.owner then some now
  else if previous.owner.isSome ∧ newOwner = none then none
  else previous.assignedAt

/-- The update path of `ApparelUnit.save` (`models.py` 327-363) as driven by
the public PATCH surface (`ApparelUnitViewSet` with `ApparelUnitSerializer`:
only `owner` and `size` are writable; `item`, `access_code` and
`assigned_at` are read-only, so the in-memory instance carries their stored
values).  The previous row is read by pk; the row is UPDATEd with the new
owner and size; `assigned_at` is recomputed, with a second UPDATE only when
it changed; finally the inventory rows of the new size, and of the previous
size when the size changed, are refreshed (the source iterates that one- or
two-element set in unspecified order; the two refreshes touch disjoint
rows). -/
def unit_save (s : St) (uid : Nat) (newOwner : Option Nat) (newSize : Size)
    (now : Nat) : Except Err St :=
  match s.units.find? (byId uid) with
  | none => .error .notFound
  | some previous =>
      let s1 := { s with
        units := replaceFirst (byId uid)
          (fun u => { u with owner := newOwner, size := newSize }) s.units,
        writes := s.writes + 1 }
      let assignedAt := assignedAtAfter previous newOwner now
      let s2 :=
        if assignedAt ≠ previous.assignedAt then
          { s1 with
              units := replaceFirst (byId uid)
                (fun u => { u with assignedAt := assignedAt }) s1.units,
              writes := s1.writes + 1 }
        else s1
      let s3 := refresh_inventory_for_size s2 previous.itemId newSize
      .ok (if previous.size ≠ newSize
           then refresh_inventory_for_size s3 previous.itemId previous.size
           else s3)

/-- `ApparelUnit.delete` (`models.py` 365-371): DELETE the row, then refresh
the inventory row of the freed size. -/
def unit_delete (s : St) (uid : Nat) : Except Err St :=
  match s.units.find? (byId uid) with
  | none => .error .notFound
  | some u =>
      let s1 := { s with units := removeFirst (byId uid) s.units,
                         writes := s.writes + 1 }
      .ok (refresh_inventory_for_size s1 u.itemId u.size)

/-- `ApparelItemViewSet.lookup` (`views.py` 43-52): `get_object_or_404` on
`access_code`; `none` is the 404 not-found signal. -/
def lookup (s : St) (code : String) : Option ApparelUnit :=
  s.units.find? fun u => decide (u.accessCode = code)

/-- The public mutating operations of the catalog API. -/
inductive Op where
  | itemSave (it : Item)
  | unitSave (uid : Nat) (newOwner : Option Nat) (newSize : Size) (now : Nat)
  | unitDelete (uid : Nat)
deriving DecidableEq, Repr

/-- Dispatch one public operation. -/
def apply (s : St) : Op → Except Err St
  | .itemSave it => item_save s it
  | .unitSave uid o z t => unit_save s uid o z t
  | .unitDelete uid => unit_delete s uid

/-- One request: a failing operation leaves the store unchanged (the spec's
transactional store rolls a failed request back; `configurationError` and
`notFound` are raised before any write even without a transaction). -/
def step (s : St) (op : Op) : St :=
  match apply s op with
  | .ok s1 => s1
  | .error _ => s

/-- A sequence of requests. -/
def run (s : St) (ops : List Op) : St :=
  ops.foldl step s

/-- A store holding operator-configured items and templates but no units and
no inventory rows yet, with a given stream of pending random outputs. -/
def init (items : List Item) (templates : List SizeTemplate)
    (rng : List String) : St :=
  ⟨items, templates, [], [], 0, rng, 0⟩

/-- The sync/reconcile operation of the spec's idempotence property:
`_sync_inventory_from_collection` followed by `_ensure_units_from_templates`
(`ApparelItem.save` runs exactly this pair after persisting the row). -/
def sync_reconcile (s : St) (it : Item) : Except Err St :=
  ensure_units_from_templates (sync_inventory_from_collection s it) it

/-! ## Proof-side definitions -/

/-- Ground truth at one key (§8 of the spec, first invariant): the stored
inventory pair of a key is absent when the key has no units, and otherwise
equals the actual `(total, unowned)` unit counts. -/
def GTat (s : St) (i : Nat) (z : Size) : Prop :=
  invVals s i z =
    if countUnits s i z = 0 then none
    else some (countUnits s i z, countUnowned s i z)

/-- Unit pks are distinct and below the id counter. -/
def IdsOk (s : St) : Prop :=
  (s.units.map (·.id)).Nodup ∧ ∀ u ∈ s.units, u.id < s.nextUnitId

/-- The global unique constraint on `access_code`, on the live rows. -/
def CodesOk (s : St) : Prop := (s.units.map (·.accessCode)).Nodup

/-- The `(item, size)` unique constraint on inventory rows. -/
def KeysOk (s : St) : Prop :=
  (s.inventories.map fun r => (r.itemId, r.size)).Nodup

/-- The store's structural constraints. -/
def Wf (s : St) : Prop := IdsOk s ∧ CodesOk s ∧ KeysOk s

/-- The full state invariant: structural constraints plus ground truth at
every key. -/
def Inv (s : St) : Prop := Wf s ∧ ∀ i z, GTat s i z

/-- Apply `f` to the unit with pk `uid` (if any), pointwise: the shape
`replaceFirst (byId uid)` takes once pks are known distinct. -/
def applyAt (uid : Nat) (f : ApparelUnit → ApparelUnit)
    (l : List ApparelUnit) : List ApparelUnit :=
  l.map fun u => if u.id = uid then f u else u

/-- The state after `unit_save`'s row updates (the `super().save()` UPDATE
and the conditional `assigned_at` UPDATE), before the inventory refreshes. -/
def unitSaveMid (s : St) (uid : Nat) (o : Option Nat) (nz : Size) (now : Nat)
    (prev : ApparelUnit) : St :=
  let s1 : St := { s with
    units := replaceFirst (byId uid)
      (fun u => { u with owner := o, size := nz }) s.units,
    writes := s.writes + 1 }
  if assignedAtAfter prev o now ≠ prev.assignedAt then
    { s1 with
        units := replaceFirst (byId uid)
          (fun u => { u with assignedAt := assignedAtAfter prev o now }) s1.units,
        writes := s1.writes + 1 }
  else s1

/-! ## Concrete scenario states (used by witnesses and counterexamples) -/

/-- One item, one template (size M, quantity 2), one save: two units. -/
def cBase : St := run (init [⟨1, 1⟩] [⟨1, Size.M, 2⟩] ["A", "B"]) [.itemSave ⟨1, 1⟩]

/-- `cBase` after assigning owner 7 to unit 0 at instant 5. -/
def cBaseAssigned : St :=
  match unit_save cBase 0 (some 7) Size.M 5 with
  | .ok s => s
  | .error _ => cBase

/-- `cBaseAssigned` after removing the owner of unit 0 at instant 9. -/
def cBaseUnassigned : St :=
  match unit_save cBaseAssigned 0 none Size.M 9 with
  | .ok s => s
  | .error _ => cBaseAssigned

/-- Three units of size M, unit 0 owned: a small downsizing scenario. -/
def cThree : St := run (init [⟨1, 1⟩] [⟨1, Size.M, 3⟩] ["A", "B", "C"])
  [.itemSave ⟨1, 1⟩, .unitSave 0 (some 7) Size.M 10]

/-- The spec's §8 shrink scenario: 80 size-M units with ids 0..79, the five
oldest owned by user 7, after the operator reduced the size-M template to 70
(a Size Template Store edit, spec §4.2; template edits are operator data,
not one of the public operations). -/
def cC3 : St :=
  { items := [⟨1, 1⟩],
    templates := [⟨1, Size.M, 70⟩],
    units := (List.range 80).map fun n =>
      ⟨n, 1, Size.M, "C" ++ Nat.repr n,
        if n < 5 then some 7 else none, if n < 5 then some 1 else none⟩,
    inventories := [⟨1, Size.M, 80, 75⟩],
    nextUnitId := 80,
    rng := [],
    writes := 0 }

/-- The result of running the unit-count reconciliation on `cC3`. -/
def cC3res : St :=
  match ensure_units_from_templates cC3 ⟨1, 1⟩ with
  | .ok s => s
  | .error _ => cC3

/-- Two units, both owned. -/
def cC5pre : St := run (init [⟨1, 1⟩] [⟨1, Size.M, 2⟩] ["A", "B"])
  [.itemSave ⟨1, 1⟩, .unitSave 0 (some 7) Size.M 10, .unitSave 1 (some 8) Size.M 11]

/-- `cC5pre` after the operator reduced the size-M template quantity to 1. -/
def cC5 : St := { cC5pre with templates := [⟨1, Size.M, 1⟩] }

/-- First sync/reconcile run on `cC5`. -/
def cC5r1 : St :=
  match sync_reconcile cC5 ⟨1, 1⟩ with
  | .ok s => s
  | .error _ => cC5

/-- Second sync/reconcile run. -/
def cC5r2 : St :=
  match sync_reconcile cC5r1 ⟨1, 1⟩ with
  | .ok s => s
  | .error _ => cC5

/-- Two items in one collection, one unit created with code "A"; the random
stream would hand the second item's unit the code the first already holds. -/
def cC7 : St := run (init [⟨1, 1⟩, ⟨2, 1⟩] [⟨1, Size.M, 1⟩] ["A", "A"])
  [.itemSave ⟨1, 1⟩]

/-- One unit created with code "A". -/
def cC9mid : St := run (init [⟨1, 1⟩] [⟨1, Size.M, 1⟩] ["A", "A"]) [.itemSave ⟨1, 1⟩]

/-- Unit 0 deleted and the item saved again: the replacement unit draws the
same code "A" from the random stream. -/
def cC9end : St := run (init [⟨1, 1⟩] [⟨1, Size.M, 1⟩] ["A", "A"])
  [.itemSave ⟨1, 1⟩, .unitDelete 0, .itemSave ⟨1, 1⟩]

/-- A collection whose template allots quantity 0 to size M. -/
def cC10 : St := init [⟨1, 1⟩] [⟨1, Size.M, 0⟩, ⟨1, Size.L, 1⟩] ["A"]

/-- The result of saving the item of that collection. -/
def cC10res : St :=
  match item_save cC10 ⟨1, 1⟩ with
  | .ok s => s
  | .error _ => cC10

/-! ## Theorems: generic list lemmas -/

theorem find?_filter_of_imp {α : Type _} {l : List α} {p q : α → Bool}
    (h : ∀ a, q a = true → p a = true) : (l.filter p).find? q = l.find? q := by
  induction l with
  | nil => rfl
  | cons x xs ih =>
    by_cases hq : q x = true
    · have hp := h x hq
      simp [List.filter_cons, hp, hq]
    · by_cases hp : p x = true <;>
        simp [List.filter_cons, hp, List.find?_cons, hq, ih]

theorem find?_filter_none {α : Type _} {l : List α} {p q : α → Bool}
    (h : ∀ a, q a = true → p a = false) : (l.filter p).find? q = none := by
  rw [List.find?_eq_none]
  intro x hx hq
  have hmem := List.of_mem_filter hx
  rw [h x hq] at hmem
  exact absurd hmem (by simp)

theorem replaceFirst_find?_same {α : Type _} {l : List α} {p : α → Bool} {f : α → α}
    (hf : ∀ a, p a = true → p (f a) = true) :
    (replaceFirst p f l).find? p = (l.find? p).map f := by
  induction l with
  | nil => rfl
  | cons x xs ih =>
    by_cases hx : p x = true
    · simp [replaceFirst, hx, List.find?_cons, hf x hx]
    · simp [replaceFirst, hx, List.find?_cons, ih]

theorem replaceFirst_find?_other {α : Type _} {l : List α} {p q : α → Bool} {f : α → α}
    (h : ∀ a, p a = true → q a = false ∧ q (f a) = false) :
    (replaceFirst p f l).find? q = l.find? q := by
  induction l with
  | nil => rfl
  | cons x xs ih =>
    by_cases hx : p x = true
    · obtain ⟨h1, h2⟩ := h x hx
      simp [replaceFirst, hx, List.find?_cons, h1, h2]
    · by_cases hq : q x = true <;>
        simp [replaceFirst, hx, List.find?_cons, hq, ih]

theorem replaceFirst_map {α β : Type _} (l : List α) (p : α → Bool) (f : α → α)
    (g : α → β) (h : ∀ a, p a = true → g (f a) = g a) :
    (replaceFirst p f l).map g = l.map g := by
  induction l with
  | nil => rfl
  | cons x xs ih =>
    by_cases hx : p x = true
    · simp [replaceFirst, hx, h x hx]
    · simp [replaceFirst, hx, ih]

theorem removeFirst_sublist {α : Type _} (p : α → Bool) (l : List α) :
    List.Sublist (removeFirst p l) l := by
  induction l with
  | nil => simp [removeFirst]
  | cons x xs ih =>
    by_cases hx : p x = true
    · simp only [removeFirst, hx, if_true]
      exact (List.sublist_cons_self x xs)
    · simp only [removeFirst, hx, if_false]
      exact ih.cons₂ x

theorem filter_of_disjoint {α : Type _} {l : List α} {p q : α → Bool}
    (h : ∀ a ∈ l, q a = true → p a = false) :
    (l.filter fun a => !(p a)).filter q = l.filter q := by
  rw [List.filter_filter]
  refine List.filter_congr fun a ha => ?_
  by_cases hq : q a = true
  · simp [hq, h a ha hq]
  · simp [hq]

/-! ## Theorems: `refresh_inventory_for_size` -/

theorem refresh_units (s : St) (i : Nat) (z : Size) :
    (refresh_inventory_for_size s i z).units = s.units := by
  simp only [refresh_inventory_for_size]
  repeat' split
  all_goals rfl

theorem refresh_items (s : St) (i : Nat) (z : Size) :
    (refresh_inventory_for_size s i z).items = s.items := by
  simp only [refresh_inventory_for_size]
  repeat' split
  all_goals rfl

theorem refresh_templates (s : St) (i : Nat) (z : Size) :
    (refresh_inventory_for_size s i z).templates = s.templates := by
  simp only [refresh_inventory_for_size]
  repeat' split
  all_goals rfl

theorem refresh_nextUnitId (s : St) (i : Nat) (z : Size) :
    (refresh_inventory_for_size s i z).nextUnitId = s.nextUnitId := by
  simp only [refresh_inventory_for_size]
  repeat' split
  all_goals rfl

theorem refresh_rng (s : St) (i : Nat) (z : Size) :
    (refresh_inventory_for_size s i z).rng = s.rng := by
  simp only [refresh_inventory_for_size]
  repeat' split
  all_goals rfl

theorem unitsOf_congr {s s' : St} (h : s'.units = s.units) (i : Nat) (z : Size) :
    unitsOf s' i z = unitsOf s i z := by
  simp [unitsOf, h]

theorem countUnits_congr {s s' : St} (h : s'.units = s.units) (i : Nat) (z : Size) :
    countUnits s' i z = countUnits s i z := by
  simp [countUnits, unitsOf_congr h]

theorem countUnowned_congr {s s' : St} (h : s'.units = s.units) (i : Nat) (z : Size) :
    countUnowned s' i z = countUnowned s i z := by
  simp [countUnowned, unitsOf_congr h]

theorem GTat_congr {s s' : St} {i : Nat} {z : Size}
    (h1 : unitsOf s' i z = unitsOf s i z) (h2 : invVals s' i z = invVals s i z) :
    GTat s i z → GTat s' i z := by
  simp only [GTat, countUnits, countUnowned, h1, h2]
  exact id

theorem IdsOk_congr {s s' : St} (hu : s'.units = s.units)
    (hn : s'.nextUnitId = s.nextUnitId) : IdsOk s → IdsOk s' := by
  simp only [IdsOk, hu, hn]
  exact id

theorem CodesOk_congr {s s' : St} (hu : s'.units = s.units) :
    CodesOk s → CodesOk s' := by
  simp only [CodesOk, hu]
  exact id

theorem findRow_eq_none_iff {s : St} {i : Nat} {z : Size} :
    findRow s i z = none ↔ ∀ r ∈ s.inventories, ¬(r.itemId = i ∧ r.size = z) := by
  simp [findRow, List.find?_eq_none]

theorem refresh_inventories_delete {s : St} {i : Nat} {z : Size}
    (h0 : countUnits s i z = 0) :
    (refresh_inventory_for_size s i z).inventories =
      s.inventories.filter fun r => !(keyR i z r) := by
  simp [refresh_inventory_for_size, h0]

theorem refresh_inventories_append {s : St} {i : Nat} {z : Size}
    (h0 : ¬countUnits s i z = 0) (hr : findRow s i z = none) :
    (refresh_inventory_for_size s i z).inventories =
      s.inventories ++ [⟨i, z, countUnits s i z, countUnowned s i z⟩] := by
  simp [refresh_inventory_for_size, h0, hr]

theorem refresh_eq_self {s : St} {i : Nat} {z : Size} {r : InvRow}
    (h0 : ¬countUnits s i z = 0) (hr : findRow s i z = some r)
    (hv : r.quantity_initial = countUnits s i z ∧
          r.quantity_remaining = countUnowned s i z) :
    refresh_inventory_for_size s i z = s := by
  simp [refresh_inventory_for_size, h0, hr, hv]

theorem refresh_inventories_update {s : St} {i : Nat} {z : Size} {r : InvRow}
    (h0 : ¬countUnits s i z = 0) (hr : findRow s i z = some r)
    (hv : ¬(r.quantity_initial = countUnits s i z ∧
            r.quantity_remaining = countUnowned s i z)) :
    (refresh_inventory_for_size s i z).inventories =
      replaceFirst (keyR i z)
        (fun r0 => { r0 with quantity_initial := countUnits s i z,
                             quantity_remaining := countUnowned s i z })
        s.inventories := by
  simp [refresh_inventory_for_size, h0, hr, hv]

theorem refresh_GT_at (s : St) (i : Nat) (z : Size) :
    GTat (refresh_inventory_for_size s i z) i z := by
  have hu := refresh_units s i z
  unfold GTat
  rw [countUnits_congr hu, countUnowned_congr hu]
  by_cases h0 : countUnits s i z = 0
  · rw [if_pos h0]
    have hnone : findRow (refresh_inventory_for_size s i z) i z = none := by
      unfold findRow
      rw [refresh_inventories_delete h0]
      exact find?_filter_none fun a ha => by simp [ha]
    simp [invVals, hnone]
  · rw [if_neg h0]
    cases hr : findRow s i z with
    | none =>
      have hsome : findRow (refresh_inventory_for_size s i z) i z =
          some ⟨i, z, countUnits s i z, countUnowned s i z⟩ := by
        unfold findRow
        rw [refresh_inventories_append h0 hr]
        rw [List.find?_append, show s.inventories.find? (keyR i z) = none from hr]
        simp [keyR]
      simp [invVals, hsome]
    | some r =>
      by_cases hv : r.quantity_initial = countUnits s i z ∧
          r.quantity_remaining = countUnowned s i z
      · rw [refresh_eq_self h0 hr hv]
        simp [invVals, hr, hv.1, hv.2]
      · have hsome : findRow (refresh_inventory_for_size s i z) i z =
            some { r with quantity_initial := countUnits s i z,
                          quantity_remaining := countUnowned s i z } := by
          unfold findRow
          rw [refresh_inventories_update h0 hr hv]
          rw [replaceFirst_find?_same fun a ha => by
            simp only [keyR_eq_true] at ha ⊢
            exact ha]
          rw [show s.inventories.find? (keyR i z) = some r from hr]
          rfl
        simp [invVals, hsome]

theorem keyR_false_of_ne {i i' : Nat} {z z' : Size} {a : InvRow}
    (h : ¬(i' = i ∧ z' = z)) (ha : a.itemId = i' ∧ a.size = z') :
    keyR i z a = false := by
  rw [Bool.eq_false_iff]
  intro hk
  rw [keyR_eq_true] at hk
  exact h ⟨by rw [← ha.1, hk.1], by rw [← ha.2, hk.2]⟩

theorem refresh_findRow_other {s : St} {i i' : Nat} {z z' : Size}
    (h : ¬(i' = i ∧ z' = z)) :
    findRow (refresh_inventory_for_size s i z) i' z' = findRow s i' z' := by
  have hsym : ∀ a : InvRow, keyR i' z' a = true → keyR i z a = false := by
    intro a ha
    rw [keyR_eq_true] at ha
    exact keyR_false_of_ne h ha
  by_cases h0 : countUnits s i z = 0
  · unfold findRow
    rw [refresh_inventories_delete h0]
    refine find?_filter_of_imp fun a ha => ?_
    rw [hsym a ha]
    rfl
  · cases hr : findRow s i z with
    | none =>
      unfold findRow
      rw [refresh_inventories_append h0 hr]
      rw [List.find?_append]
      have hone : ([(⟨i, z, countUnits s i z, countUnowned s i z⟩ : InvRow)].find?
          (keyR i' z')) = none := by
        simp only [List.find?_cons, List.find?_nil]
        have : keyR i' z' (⟨i, z, countUnits s i z, countUnowned s i z⟩ : InvRow) = false := by
          rw [Bool.eq_false_iff]
          intro hk
          rw [keyR_eq_true] at hk
          exact h ⟨hk.1.symm, hk.2.symm⟩
        rw [this]
      rw [hone]
      cases s.inventories.find? (keyR i' z') <;> rfl
    | some r =>
      by_cases hv : r.quantity_initial = countUnits s i z ∧
          r.quantity_remaining = countUnowned s i z
      · rw [refresh_eq_self h0 hr hv]
      · unfold findRow
        rw [refresh_inventories_update h0 hr hv]
        refine replaceFirst_find?_other fun a ha => ?_
        rw [keyR_eq_true] at ha
        exact ⟨keyR_false_of_ne (by tauto) (by tauto),
               keyR_false_of_ne (by tauto) (by tauto)⟩

theorem refresh_invVals_other {s : St} {i i' : Nat} {z z' : Size}
    (h : ¬(i' = i ∧ z' = z)) :
    invVals (refresh_inventory_for_size s i z) i' z' = invVals s i' z' := by
  simp [invVals, refresh_findRow_other h]

theorem refresh_KeysOk {s : St} (hk : KeysOk s) (i : Nat) (z : Size) :
    KeysOk (refresh_inventory_for_size s i z) := by
  unfold KeysOk at *
  by_cases h0 : countUnits s i z = 0
  · rw [refresh_inventories_delete h0]
    exact hk.sublist ((List.filter_sublist _).map _)
  · cases hr : findRow s i z with
    | none =>
      rw [refresh_inventories_append h0 hr]
      rw [List.map_append, List.nodup_append]
      refine ⟨hk, by simp, ?_⟩
      intro a ha hb
      simp only [List.map_cons, List.map_nil, List.mem_singleton] at hb
      subst hb
      simp only [List.mem_map] at ha
      obtain ⟨r, hrm, hrk⟩ := ha
      have := findRow_eq_none_iff.mp hr r hrm
      exact this ⟨congrArg Prod.fst hrk, congrArg Prod.snd hrk⟩
    | some r =>
      by_cases hv : r.quantity_initial = countUnits s i z ∧
          r.quantity_remaining = countUnowned s i z
      · rw [refresh_eq_self h0 hr hv]
        exact hk
      · rw [refresh_inventories_update h0 hr hv]
        rw [replaceFirst_map s.inventories (keyR i z)
          (fun r0 => { r0 with quantity_initial := countUnits s i z,
                               quantity_remaining := countUnowned s i z })
          (fun r => (r.itemId, r.size)) (fun a _ => rfl)]
        exact hk

theorem refresh_Wf {s : St} (hw : Wf s) (i : Nat) (z : Size) :
    Wf (refresh_inventory_for_size s i z) := by
  obtain ⟨hi, hc, hk⟩ := hw
  exact ⟨IdsOk_congr (refresh_units s i z) (refresh_nextUnitId s i z) hi,
         CodesOk_congr (refresh_units s i z) hc,
         refresh_KeysOk hk i z⟩

theorem refresh_GTat_other {s : St} {i i' : Nat} {z z' : Size}
    (h : ¬(i' = i ∧ z' = z)) (hg : GTat s i' z') :
    GTat (refresh_inventory_for_size s i z) i' z' :=
  GTat_congr (unitsOf_congr (refresh_units s i z) i' z') (refresh_invVals_other h) hg

/-! ## Theorems: `templatesFor` -/

theorem mem_sizeOrder (z : Size) : z ∈ sizeOrder := by
  cases z <;> simp [sizeOrder]

theorem templatesFor_congr {s s' : St} (h : s'.templates = s.templates) (c : Nat) :
    templatesFor s' c = templatesFor s c := by
  simp [templatesFor, h]

theorem mem_templatesFor {s : St} {c : Nat} {t : SizeTemplate}
    (h : t ∈ templatesFor s c) : t ∈ s.templates ∧ t.collectionId = c := by
  simp only [templatesFor, List.mem_filterMap] at h
  obtain ⟨z, _, hf⟩ := h
  have hm := List.mem_of_find?_eq_some hf
  have hp := List.find?_some hf
  simp only [decide_eq_true_eq] at hp
  exact ⟨hm, hp.1⟩

theorem filterMap_tpl_sizes_nodup (s : St) (c : Nat) (zs : List Size) (hzs : zs.Nodup) :
    ((zs.filterMap fun z =>
        s.templates.find? fun t => decide (t.collectionId = c ∧ t.size = z)).map
      (·.size)).Nodup := by
  induction zs with
  | nil => simp
  | cons z rest ih =>
    rw [List.filterMap_cons]
    cases hf : s.templates.find? fun t => decide (t.collectionId = c ∧ t.size = z) with
    | none => exact ih hzs.of_cons
    | some t =>
      have ht : t.size = z := by
        have := List.find?_some hf
        simp only [decide_eq_true_eq] at this
        exact this.2
      simp only [List.map_cons, List.nodup_cons]
      refine ⟨?_, ih hzs.of_cons⟩
      intro hmem
      simp only [List.mem_map] at hmem
      obtain ⟨t', ht', hsz⟩ := hmem
      simp only [List.mem_filterMap] at ht'
      obtain ⟨z', hz', hf'⟩ := ht'
      have hsz' : t'.size = z' := by
        have := List.find?_some hf'
        simp only [decide_eq_true_eq] at this
        exact this.2
      rw [hsz', ht] at hsz
      exact (List.nodup_cons.mp hzs).1 (hsz ▸ hz')

theorem templatesFor_sizes_nodup (s : St) (c : Nat) :
    ((templatesFor s c).map (·.size)).Nodup :=
  filterMap_tpl_sizes_nodup s c sizeOrder (by decide)

theorem size_mem_templatesFor {s : St} {c : Nat} {z : Size}
    (h : ∃ t ∈ s.templates, t.collectionId = c ∧ t.size = z) :
    z ∈ (templatesFor s c).map (·.size) := by
  obtain ⟨t, hm, hc, hz⟩ := h
  cases hf : s.templates.find? fun t => decide (t.collectionId = c ∧ t.size = z) with
  | none => exact absurd (List.find?_eq_none.mp hf t hm) (by simp [hc, hz])
  | some t' =>
    have hsz : t'.size = z := by
      have := List.find?_some hf
      simp only [decide_eq_true_eq] at this
      exact this.2
    refine List.mem_map.mpr ⟨t', ?_, hsz⟩
    simp only [templatesFor, List.mem_filterMap]
    exact ⟨z, mem_sizeOrder z, hf⟩

theorem of_size_mem_templatesFor {s : St} {c : Nat} {z : Size}
    (h : z ∈ (templatesFor s c).map (·.size)) :
    ∃ t ∈ s.templates, t.collectionId = c ∧ t.size = z := by
  simp only [List.mem_map] at h
  obtain ⟨t, ht, hz⟩ := h
  simp only [templatesFor, List.mem_filterMap] at ht
  obtain ⟨z', _, hf⟩ := ht
  have hp := List.find?_some hf
  simp only [decide_eq_true_eq] at hp
  exact ⟨t, List.mem_of_find?_eq_some hf, hp.1, hz⟩

/-! ## Theorems: `sync_inventory_one` -/

theorem sync_one_units (s : St) (i : Nat) (z : Size) (q : Nat) :
    (sync_inventory_one s i z q).units = s.units := by
  simp only [sync_inventory_one]
  repeat' split
  all_goals rfl

theorem sync_one_items (s : St) (i : Nat) (z : Size) (q : Nat) :
    (sync_inventory_one s i z q).items = s.items := by
  simp only [sync_inventory_one]
  repeat' split
  all_goals rfl

theorem sync_one_templates (s : St) (i : Nat) (z : Size) (q : Nat) :
    (sync_inventory_one s i z q).templates = s.templates := by
  simp only [sync_inventory_one]
  repeat' split
  all_goals rfl

theorem sync_one_nextUnitId (s : St) (i : Nat) (z : Size) (q : Nat) :
    (sync_inventory_one s i z q).nextUnitId = s.nextUnitId := by
  simp only [sync_inventory_one]
  repeat' split
  all_goals rfl

theorem sync_one_rng (s : St) (i : Nat) (z : Size) (q : Nat) :
    (sync_inventory_one s i z q).rng = s.rng := by
  simp only [sync_inventory_one]
  repeat' split
  all_goals rfl

theorem sync_one_inventories_create {s : St} {i : Nat} {z : Size} {q : Nat}
    (hr : findRow s i z = none) :
    (sync_inventory_one s i z q).inventories = s.inventories ++ [⟨i, z, q, q⟩] := by
  simp [sync_inventory_one, hr]

theorem sync_one_inventories_update {s : St} {i : Nat} {z : Size} {q : Nat} {stock : InvRow}
    (hr : findRow s i z = some stock)
    (hc : stock.quantity_initial ≠ q ∨ stock.quantity_remaining > q) :
    (sync_inventory_one s i z q).inventories =
      replaceFirst (keyR i z)
        (fun r0 => { r0 with
            quantity_initial := q,
            quantity_remaining :=
              if r0.quantity_remaining > q then q else r0.quantity_remaining })
        s.inventories := by
  simp [sync_inventory_one, hr, hc]

theorem sync_one_eq_self {s : St} {i : Nat} {z : Size} {q : Nat} {stock : InvRow}
    (hr : findRow s i z = some stock)
    (hc : ¬(stock.quantity_initial ≠ q ∨ stock.quantity_remaining > q)) :
    sync_inventory_one s i z q = s := by
  simp only [sync_inventory_one, hr]
  rw [if_neg hc]

theorem KeysNodup_append {l : List InvRow} {i : Nat} {z : Size} {a b : Nat}
    (hk : (l.map fun r => (r.itemId, r.size)).Nodup)
    (hnone : l.find? (keyR i z) = none) :
    ((l ++ [(⟨i, z, a, b⟩ : InvRow)]).map fun r => (r.itemId, r.size)).Nodup := by
  rw [List.map_append, List.nodup_append]
  refine ⟨hk, by simp, ?_⟩
  intro x hx hb
  simp only [List.map_cons, List.map_nil, List.mem_singleton] at hb
  subst hb
  simp only [List.mem_map] at hx
  obtain ⟨r, hrm, hrk⟩ := hx
  have hnk := List.find?_eq_none.mp hnone r hrm
  simp only [keyR_eq_true] at hnk
  simp only [Prod.mk.injEq] at hrk
  exact hnk ⟨hrk.1, hrk.2⟩

theorem sync_one_KeysOk {s : St} (hk : KeysOk s) (i : Nat) (z : Size) (q : Nat) :
    KeysOk (sync_inventory_one s i z q) := by
  unfold KeysOk at *
  cases hr : findRow s i z with
  | none =>
    rw [sync_one_inventories_create hr]
    exact KeysNodup_append hk hr
  | some stock =>
    by_cases hc : stock.quantity_initial ≠ q ∨ stock.quantity_remaining > q
    · rw [sync_one_inventories_update hr hc]
      rw [replaceFirst_map s.inventories (keyR i z)
        (fun r0 => { r0 with
            quantity_initial := q,
            quantity_remaining :=
              if r0.quantity_remaining > q then q else r0.quantity_remaining })
        (fun r => (r.itemId, r.size)) (fun x _ => rfl)]
      exact hk
    · rw [sync_one_eq_self hr hc]
      exact hk

theorem sync_one_findRow_other {s : St} {i i' : Nat} {z z' : Size} {q : Nat}
    (h : ¬(i' = i ∧ z' = z)) :
    findRow (sync_inventory_one s i z q) i' z' = findRow s i' z' := by
  cases hr : findRow s i z with
  | none =>
    unfold findRow
    rw [sync_one_inventories_create hr, List.find?_append]
    have hone : ([(⟨i, z, q, q⟩ : InvRow)].find? (keyR i' z')) = none := by
      simp only [List.find?_cons, List.find?_nil]
      have : keyR i' z' (⟨i, z, q, q⟩ : InvRow) = false := by
        rw [Bool.eq_false_iff]
        intro hkk
        rw [keyR_eq_true] at hkk
        exact h ⟨hkk.1.symm, hkk.2.symm⟩
      rw [this]
    rw [hone]
    cases s.inventories.find? (keyR i' z') <;> rfl
  | some stock =>
    by_cases hc : stock.quantity_initial ≠ q ∨ stock.quantity_remaining > q
    · unfold findRow
      rw [sync_one_inventories_update hr hc]
      refine replaceFirst_find?_other fun a ha => ?_
      rw [keyR_eq_true] at ha
      have h2 : ¬(i = i' ∧ z = z') := fun hc => h ⟨hc.1.symm, hc.2.symm⟩
      exact ⟨keyR_false_of_ne h2 ha, keyR_false_of_ne h2 ha⟩
    · rw [sync_one_eq_self hr hc]

/-! ## Theorems: `sync_inventory_from_collection` -/

theorem sync_fold_units (tpls : List SizeTemplate) (s : St) (i : Nat) :
    (tpls.foldl (fun acc t => sync_inventory_one acc i t.size t.quantity) s).units
      = s.units := by
  induction tpls generalizing s with
  | nil => rfl
  | cons t ts ih => rw [List.foldl_cons, ih, sync_one_units]

theorem sync_fold_items (tpls : List SizeTemplate) (s : St) (i : Nat) :
    (tpls.foldl (fun acc t => sync_inventory_one acc i t.size t.quantity) s).items
      = s.items := by
  induction tpls generalizing s with
  | nil => rfl
  | cons t ts ih => rw [List.foldl_cons, ih, sync_one_items]

theorem sync_fold_templates (tpls : List SizeTemplate) (s : St) (i : Nat) :
    (tpls.foldl (fun acc t => sync_inventory_one acc i t.size t.quantity) s).templates
      = s.templates := by
  induction tpls generalizing s with
  | nil => rfl
  | cons t ts ih => rw [List.foldl_cons, ih, sync_one_templates]

theorem sync_fold_nextUnitId (tpls : List SizeTemplate) (s : St) (i : Nat) :
    (tpls.foldl (fun acc t => sync_inventory_one acc i t.size t.quantity) s).nextUnitId
      = s.nextUnitId := by
  induction tpls generalizing s with
  | nil => rfl
  | cons t ts ih => rw [List.foldl_cons, ih, sync_one_nextUnitId]

theorem sync_fold_rng (tpls : List SizeTemplate) (s : St) (i : Nat) :
    (tpls.foldl (fun acc t => sync_inventory_one acc i t.size t.quantity) s).rng
      = s.rng := by
  induction tpls generalizing s with
  | nil => rfl
  | cons t ts ih => rw [List.foldl_cons, ih, sync_one_rng]

theorem sync_fold_KeysOk (tpls : List SizeTemplate) {s : St} (hk : KeysOk s) (i : Nat) :
    KeysOk (tpls.foldl (fun acc t => sync_inventory_one acc i t.size t.quantity) s) := by
  induction tpls generalizing s with
  | nil => exact hk
  | cons t ts ih => exact ih (sync_one_KeysOk hk i t.size t.quantity)

theorem sync_fold_findRow_otherItem (tpls : List SizeTemplate) (s : St) (i : Nat)
    {i' : Nat} {z' : Size} (h : i' ≠ i) :
    findRow (tpls.foldl (fun acc t => sync_inventory_one acc i t.size t.quantity) s) i' z'
      = findRow s i' z' := by
  induction tpls generalizing s with
  | nil => rfl
  | cons t ts ih =>
    rw [List.foldl_cons, ih, sync_one_findRow_other fun hc => h hc.1]

theorem sync_from_units (s : St) (it : Item) :
    (sync_inventory_from_collection s it).units = s.units := by
  simp only [sync_inventory_from_collection]
  exact sync_fold_units _ s it.id

theorem sync_from_items (s : St) (it : Item) :
    (sync_inventory_from_collection s it).items = s.items := by
  simp only [sync_inventory_from_collection]
  exact sync_fold_items _ s it.id

theorem sync_from_templates (s : St) (it : Item) :
    (sync_inventory_from_collection s it).templates = s.templates := by
  simp only [sync_inventory_from_collection]
  exact sync_fold_templates _ s it.id

theorem sync_from_nextUnitId (s : St) (it : Item) :
    (sync_inventory_from_collection s it).nextUnitId = s.nextUnitId := by
  simp only [sync_inventory_from_collection]
  exact sync_fold_nextUnitId _ s it.id

theorem sync_from_rng (s : St) (it : Item) :
    (sync_inventory_from_collection s it).rng = s.rng := by
  simp only [sync_inventory_from_collection]
  exact sync_fold_rng _ s it.id

theorem sync_from_KeysOk {s : St} (hk : KeysOk s) (it : Item) :
    KeysOk (sync_inventory_from_collection s it) := by
  simp only [sync_inventory_from_collection, KeysOk]
  exact (sync_fold_KeysOk _ hk it.id).sublist ((List.filter_sublist _).map _)

theorem sync_from_findRow_otherItem {s : St} {it : Item} {i' : Nat} {z' : Size}
    (h : i' ≠ it.id) :
    findRow (sync_inventory_from_collection s it) i' z' = findRow s i' z' := by
  simp only [sync_inventory_from_collection, findRow]
  rw [find?_filter_of_imp]
  · exact sync_fold_findRow_otherItem _ s it.id h
  · intro a ha
    rw [keyR_eq_true] at ha
    simp [ha.1, h]

theorem sync_from_findRow_nonTpl {s : St} {it : Item} {z : Size}
    (hz : z ∉ (templatesFor s it.collectionId).map (·.size)) :
    findRow (sync_inventory_from_collection s it) it.id z = none := by
  simp only [sync_inventory_from_collection, findRow]
  refine find?_filter_none fun a ha => ?_
  rw [keyR_eq_true] at ha
  have : ((templatesFor s it.collectionId).any fun t => decide (t.size = z)) = false := by
    rw [Bool.eq_false_iff]
    intro hany
    rw [List.any_eq_true] at hany
    obtain ⟨t, ht, hsz⟩ := hany
    simp only [decide_eq_true_eq] at hsz
    exact hz (List.mem_map.mpr ⟨t, ht, hsz⟩)
  simp [ha.1, ha.2, this]

/-! ## Theorems: `unit_insert` and `create_units` -/

theorem unit_insert_ok_elim {s s' : St} {i : Nat} {z : Size}
    (h : unit_insert s i z = .ok s') :
    s' = refresh_inventory_for_size
        { s with rng := s.rng.tail,
                 units := s.units ++ [⟨s.nextUnitId, i, z, s.rng.headD "", none, none⟩],
                 nextUnitId := s.nextUnitId + 1,
                 writes := s.writes + 1 } i z ∧
    ∀ u ∈ s.units, u.accessCode ≠ s.rng.headD "" := by
  simp only [unit_insert] at h
  by_cases hc : (s.units.any fun u => decide (u.accessCode = s.rng.headD "")) = true
  · rw [if_pos hc] at h
    exact absurd h (by simp)
  · rw [if_neg hc] at h
    simp only [Except.ok.injEq] at h
    refine ⟨h.symm, ?_⟩
    intro u hu hcode
    exact hc (List.any_eq_true.mpr ⟨u, hu, by simp [hcode]⟩)

theorem unit_insert_facts {s s' : St} {i : Nat} {z : Size}
    (h : unit_insert s i z = .ok s') :
    s'.items = s.items ∧ s'.templates = s.templates ∧
    s'.nextUnitId = s.nextUnitId + 1 ∧ s'.rng = s.rng.tail ∧
    s'.units = s.units ++ [⟨s.nextUnitId, i, z, s.rng.headD "", none, none⟩] ∧
    (∀ i' z', ¬(i' = i ∧ z' = z) → invVals s' i' z' = invVals s i' z') ∧
    (Wf s → Wf s') := by
  obtain ⟨hs, hfresh⟩ := unit_insert_ok_elim h
  subst hs
  set u0 : ApparelUnit := ⟨s.nextUnitId, i, z, s.rng.headD "", none, none⟩
  set s1 : St :=
    { s with rng := s.rng.tail, units := s.units ++ [u0],
             nextUnitId := s.nextUnitId + 1, writes := s.writes + 1 }
  refine ⟨refresh_items s1 i z, refresh_templates s1 i z,
          refresh_nextUnitId s1 i z, refresh_rng s1 i z,
          refresh_units s1 i z, ?_, ?_⟩
  · intro i' z' hne
    exact (refresh_invVals_other hne).trans rfl
  · rintro ⟨⟨hnd, hlt⟩, hcode, hkeys⟩
    have hw1 : Wf s1 := by
      refine ⟨⟨?_, ?_⟩, ?_, hkeys⟩
      · show ((s.units ++ [u0]).map (·.id)).Nodup
        rw [List.map_append, List.nodup_append]
        refine ⟨hnd, by simp, ?_⟩
        intro a ha hb
        simp only [List.map_cons, List.map_nil, List.mem_singleton] at hb
        simp only [List.mem_map] at ha
        obtain ⟨v, hv, hva⟩ := ha
        have := hlt v hv
        simp only [hb] at hva
        exact absurd hva (Nat.ne_of_lt (hva ▸ this)).symm
      · intro v hv
        rcases List.mem_append.mp hv with hv | hv
        · exact Nat.lt_succ_of_lt (hlt v hv)
        · simp only [List.mem_singleton] at hv
          subst hv
          exact Nat.lt_succ_self _
      · show ((s.units ++ [u0]).map (·.accessCode)).Nodup
        rw [List.map_append, List.nodup_append]
        refine ⟨hcode, by simp, ?_⟩
        intro a ha hb
        simp only [List.map_cons, List.map_nil, List.mem_singleton] at hb
        simp only [List.mem_map] at ha
        obtain ⟨v, hv, hva⟩ := ha
        exact hfresh v hv (hb ▸ hva)
    exact refresh_Wf hw1 i z

theorem unit_insert_countUnits {s s' : St} {i : Nat} {z : Size}
    (h : unit_insert s i z = .ok s') :
    countUnits s' i z = countUnits s i z + 1 := by
  obtain ⟨_, _, _, _, hu, _, _⟩ := unit_insert_facts h
  unfold countUnits unitsOf
  rw [hu, List.filter_append]
  simp [keyU]

theorem unit_insert_unitsOf_other {s s' : St} {i i' : Nat} {z z' : Size}
    (h : unit_insert s i z = .ok s') (hne : ¬(i' = i ∧ z' = z)) :
    unitsOf s' i' z' = unitsOf s i' z' := by
  obtain ⟨_, _, _, _, hu, _, _⟩ := unit_insert_facts h
  unfold unitsOf
  rw [hu, List.filter_append]
  have : keyU i' z' (⟨s.nextUnitId, i, z, s.rng.headD "", none, none⟩ : ApparelUnit) = false := by
    rw [Bool.eq_false_iff]
    intro hk
    rw [keyU_eq_true] at hk
    exact hne ⟨hk.1.symm, hk.2.symm⟩
  have h2 : List.filter (keyU i' z')
      [(⟨s.nextUnitId, i, z, s.rng.headD "", none, none⟩ : ApparelUnit)] = [] := by
    simp only [List.filter_cons, this, List.filter_nil]
    rfl
  rw [h2, List.append_nil]

theorem create_units_ok (n : Nat) {s s' : St} {i : Nat} {z : Size}
    (h : create_units s i z n = .ok s') :
    s'.items = s.items ∧ s'.templates = s.templates ∧
    countUnits s' i z = countUnits s i z + n ∧
    (∀ i' z', ¬(i' = i ∧ z' = z) →
      unitsOf s' i' z' = unitsOf s i' z' ∧ invVals s' i' z' = invVals s i' z') ∧
    (Wf s → Wf s') := by
  induction n generalizing s with
  | zero =>
    simp only [create_units, Except.ok.injEq] at h
    subst h
    exact ⟨rfl, rfl, rfl, fun _ _ _ => ⟨rfl, rfl⟩, id⟩
  | succ n ih =>
    simp only [create_units, bind, Except.bind] at h
    cases hins : unit_insert s i z with
    | error e => rw [hins] at h; exact absurd h (by simp)
    | ok s1 =>
      rw [hins] at h
      obtain ⟨hitems, htpl, hcount, hoff, hwf⟩ := ih h
      obtain ⟨h1items, h1tpl, _, _, _, h1off, h1wf⟩ := unit_insert_facts hins
      refine ⟨hitems.trans h1items, htpl.trans h1tpl, ?_, ?_, fun hw => hwf (h1wf hw)⟩
      · rw [hcount, unit_insert_countUnits hins]
        omega
      · intro i' z' hne
        obtain ⟨ho1, ho2⟩ := hoff i' z' hne
        exact ⟨ho1.trans (unit_insert_unitsOf_other hins hne),
               ho2.trans (h1off i' z' hne)⟩

/-! ## Theorems: downsizing (`deleteState`, `removableIdsOf`) -/

theorem filter_swap {α : Type _} (p q : α → Bool) (l : List α) :
    (l.filter p).filter q = (l.filter q).filter p := by
  simp [List.filter_filter, Bool.and_comm]

theorem length_filter_id_mem {l : List ApparelUnit} {R : List Nat}
    (hnd : (l.map (·.id)).Nodup) (hR : R.Nodup)
    (hsub : ∀ x ∈ R, x ∈ l.map (·.id)) :
    (l.filter fun u => decide (u.id ∈ R)).length = R.length := by
  have h1 : ((l.filter fun u => decide (u.id ∈ R)).map (·.id)).Nodup :=
    hnd.sublist ((List.filter_sublist l).map _)
  have h2 : ∀ x, x ∈ (l.filter fun u => decide (u.id ∈ R)).map (·.id) ↔ x ∈ R := by
    intro x
    constructor
    · intro hx
      simp only [List.mem_map] at hx
      obtain ⟨u, hu, hux⟩ := hx
      have hp := List.of_mem_filter hu
      simp only [decide_eq_true_eq] at hp
      exact hux ▸ hp
    · intro hx
      obtain ⟨u, hu, hux⟩ := List.mem_map.mp (hsub x hx)
      refine List.mem_map.mpr ⟨u, List.mem_filter.mpr ⟨hu, ?_⟩, hux⟩
      simp [hux, hx]
  have hperm := (List.perm_ext_iff_of_nodup h1 hR).mpr h2
  calc (l.filter fun u => decide (u.id ∈ R)).length
      = ((l.filter fun u => decide (u.id ∈ R)).map (·.id)).length :=
        (List.length_map _ _).symm
    _ = R.length := hperm.length_eq

theorem length_filter_not_id_mem {l : List ApparelUnit} {R : List Nat}
    (hnd : (l.map (·.id)).Nodup) (hR : R.Nodup)
    (hsub : ∀ x ∈ R, x ∈ l.map (·.id)) :
    (l.filter fun u => !(decide (u.id ∈ R))).length = l.length - R.length := by
  have hsplit := l.length_eq_length_filter_add fun u => decide (u.id ∈ R)
  rw [length_filter_id_mem hnd hR hsub] at hsplit
  omega

theorem unownedDescById_perm (s : St) (i : Nat) (z : Size) :
    (unownedDescById s i z).Perm ((unitsOf s i z).filter unowned) :=
  List.perm_insertionSort _ _

theorem unownedDescById_sorted (s : St) (i : Nat) (z : Size) :
    (unownedDescById s i z).Sorted fun a b => b.id ≤ a.id :=
  List.sorted_insertionSort _ _

theorem unitsOf_ids_nodup {s : St} (hids : (s.units.map (·.id)).Nodup)
    (i : Nat) (z : Size) : ((unitsOf s i z).map (·.id)).Nodup :=
  hids.sublist ((List.filter_sublist _).map _)

theorem unowned_ids_nodup {s : St} (hids : (s.units.map (·.id)).Nodup)
    (i : Nat) (z : Size) :
    (((unitsOf s i z).filter unowned).map (·.id)).Nodup :=
  (unitsOf_ids_nodup hids i z).sublist ((List.filter_sublist _).map _)

theorem mem_take_unownedDescById {s : St} {i : Nat} {z : Size} {k : Nat} {u : ApparelUnit}
    (hu : u ∈ (unownedDescById s i z).take k) :
    u ∈ (unitsOf s i z).filter unowned :=
  (unownedDescById_perm s i z).mem_iff.mp ((List.take_sublist k _).mem hu)

theorem removableIdsOf_mem {s : St} {i : Nat} {z : Size} {k : Nat} {x : Nat}
    (hx : x ∈ removableIdsOf s i z k) :
    ∃ u ∈ (unitsOf s i z).filter unowned, u.id = x := by
  simp only [removableIdsOf, List.mem_map] at hx
  obtain ⟨u, hu, hux⟩ := hx
  exact ⟨u, mem_take_unownedDescById hu, hux⟩

theorem removableIdsOf_nodup {s : St} (hids : (s.units.map (·.id)).Nodup)
    (i : Nat) (z : Size) (k : Nat) : (removableIdsOf s i z k).Nodup := by
  have hperm : ((unownedDescById s i z).map (·.id)).Perm
      ((((unitsOf s i z).filter unowned)).map (·.id)) :=
    (unownedDescById_perm s i z).map _
  have hnd : ((unownedDescById s i z).map (·.id)).Nodup :=
    (hperm.nodup_iff).mpr (unowned_ids_nodup hids i z)
  exact hnd.sublist ((List.take_sublist k _).map _)

theorem removableIdsOf_length {s : St} (i : Nat) (z : Size) (k : Nat) :
    (removableIdsOf s i z k).length = min k (countUnowned s i z) := by
  simp only [removableIdsOf, List.length_map, List.length_take]
  rw [(unownedDescById_perm s i z).length_eq]
  rfl

theorem deleteState_units (s : St) (R : List Nat) :
    (deleteState s R).units = s.units.filter fun u => !(decide (u.id ∈ R)) := by
  unfold deleteState
  split
  · next hR =>
    rw [List.isEmpty_iff] at hR
    subst hR
    simp
  · rfl

theorem deleteState_items (s : St) (R : List Nat) :
    (deleteState s R).items = s.items := by
  unfold deleteState
  split <;> rfl

theorem deleteState_templates (s : St) (R : List Nat) :
    (deleteState s R).templates = s.templates := by
  unfold deleteState
  split <;> rfl

theorem deleteState_inventories (s : St) (R : List Nat) :
    (deleteState s R).inventories = s.inventories := by
  unfold deleteState
  split <;> rfl

theorem deleteState_nextUnitId (s : St) (R : List Nat) :
    (deleteState s R).nextUnitId = s.nextUnitId := by
  unfold deleteState
  split <;> rfl

theorem deleteState_rng (s : St) (R : List Nat) :
    (deleteState s R).rng = s.rng := by
  unfold deleteState
  split <;> rfl

theorem deleteState_unitsOf (s : St) (R : List Nat) (i : Nat) (z : Size) :
    unitsOf (deleteState s R) i z =
      (unitsOf s i z).filter fun u => !(decide (u.id ∈ R)) := by
  unfold unitsOf
  rw [deleteState_units]
  exact filter_swap _ _ _

theorem deleteState_countUnits {s : St} (hids : (s.units.map (·.id)).Nodup)
    (i : Nat) (z : Size) (k : Nat) :
    countUnits (deleteState s (removableIdsOf s i z k)) i z =
      countUnits s i z - (removableIdsOf s i z k).length := by
  unfold countUnits
  rw [deleteState_unitsOf]
  refine length_filter_not_id_mem (unitsOf_ids_nodup hids i z)
    (removableIdsOf_nodup hids i z k) fun x hx => ?_
  obtain ⟨u, hu, hux⟩ := removableIdsOf_mem hx
  exact List.mem_map.mpr ⟨u, List.mem_of_mem_filter hu, hux⟩

theorem deleteState_countUnowned {s : St} (hids : (s.units.map (·.id)).Nodup)
    (i : Nat) (z : Size) (k : Nat) :
    countUnowned (deleteState s (removableIdsOf s i z k)) i z =
      countUnowned s i z - (removableIdsOf s i z k).length := by
  unfold countUnowned
  rw [deleteState_unitsOf, filter_swap]
  refine length_filter_not_id_mem (unowned_ids_nodup hids i z)
    (removableIdsOf_nodup hids i z k) fun x hx => ?_
  obtain ⟨u, hu, hux⟩ := removableIdsOf_mem hx
  exact List.mem_map.mpr ⟨u, hu, hux⟩

theorem deleteState_unitsOf_other {s : St} (hids : (s.units.map (·.id)).Nodup)
    {i i' : Nat} {z z' : Size} (k : Nat) (hne : ¬(i' = i ∧ z' = z)) :
    unitsOf (deleteState s (removableIdsOf s i z k)) i' z' = unitsOf s i' z' := by
  rw [deleteState_unitsOf]
  refine List.filter_eq_self.mpr fun u hu => ?_
  simp only [Bool.not_eq_true', decide_eq_false_iff_not]
  intro hmem
  obtain ⟨v, hv, hvu⟩ := removableIdsOf_mem hmem
  have hvunits : v ∈ s.units :=
    List.mem_of_mem_filter (List.mem_of_mem_filter hv)
  have huunits : u ∈ s.units := List.mem_of_mem_filter hu
  have : v = u := List.inj_on_of_nodup_map hids hvunits huunits hvu
  subst this
  have hkv := List.mem_filter.mp (List.mem_of_mem_filter hv)
  have hku := List.mem_filter.mp hu
  rw [keyU_eq_true] at hkv hku
  exact hne ⟨hku.2.1.symm.trans hkv.2.1, hku.2.2.symm.trans hkv.2.2⟩

theorem deleteState_owned_kept {s : St} (hids : (s.units.map (·.id)).Nodup)
    (i : Nat) (z : Size) (k : Nat) {u : ApparelUnit}
    (hu : u ∈ s.units) (how : u.owner ≠ none) :
    u ∈ (deleteState s (removableIdsOf s i z k)).units := by
  rw [deleteState_units]
  refine List.mem_filter.mpr ⟨hu, ?_⟩
  simp only [Bool.not_eq_true', decide_eq_false_iff_not]
  intro hmem
  obtain ⟨v, hv, hvu⟩ := removableIdsOf_mem hmem
  have hvunits : v ∈ s.units :=
    List.mem_of_mem_filter (List.mem_of_mem_filter hv)
  have : v = u := List.inj_on_of_nodup_map hids hvunits hu hvu
  subst this
  have := List.mem_filter.mp hv
  rw [unowned_eq_true] at this
  exact how this.2

theorem invVals_congr {s s' : St} (h : s'.inventories = s.inventories)
    (i : Nat) (z : Size) : invVals s' i z = invVals s i z := by
  simp [invVals, findRow, h]

theorem removed_mem_take {s : St} (hids : (s.units.map (·.id)).Nodup)
    {i : Nat} {z : Size} {k : Nat} {u : ApparelUnit}
    (hu : u ∈ s.units) (hnot : u ∉ (deleteState s (removableIdsOf s i z k)).units) :
    u ∈ (unownedDescById s i z).take k := by
  rw [deleteState_units] at hnot
  have hF : ¬(!(decide (u.id ∈ removableIdsOf s i z k))) = true := fun hF =>
    hnot (List.mem_filter.mpr ⟨hu, hF⟩)
  simp only [Bool.not_eq_true', decide_eq_false_iff_not, not_not] at hF
  simp only [removableIdsOf, List.mem_map] at hF
  obtain ⟨w, hw, hwid⟩ := hF
  have hwunits : w ∈ s.units :=
    List.mem_of_mem_filter (List.mem_of_mem_filter (mem_take_unownedDescById hw))
  have : w = u := List.inj_on_of_nodup_map hids hwunits hu hwid
  exact this ▸ hw

theorem removed_unowned_at_key {s : St} (hids : (s.units.map (·.id)).Nodup)
    {i : Nat} {z : Size} {k : Nat} {u : ApparelUnit}
    (hu : u ∈ s.units) (hnot : u ∉ (deleteState s (removableIdsOf s i z k)).units) :
    u.owner = none ∧ u.itemId = i ∧ u.size = z := by
  have hmem := mem_take_unownedDescById (removed_mem_take hids hu hnot)
  have h1 := List.mem_filter.mp hmem
  have h2 := List.mem_filter.mp h1.1
  rw [unowned_eq_true] at h1
  rw [keyU_eq_true] at h2
  exact ⟨h1.2, h2.2.1, h2.2.2⟩

theorem deleteState_most_recent {s : St} (hids : (s.units.map (·.id)).Nodup)
    {i : Nat} {z : Size} {k : Nat} {u v : ApparelUnit}
    (hu : u ∈ s.units) (hnot : u ∉ (deleteState s (removableIdsOf s i z k)).units)
    (hv : v ∈ unitsOf (deleteState s (removableIdsOf s i z k)) i z)
    (hvun : v.owner = none) :
    v.id < u.id := by
  have hutake := removed_mem_take hids hu hnot
  rw [deleteState_unitsOf] at hv
  have hvL : v ∈ unitsOf s i z := List.mem_of_mem_filter hv
  have hvA : v ∈ (unitsOf s i z).filter unowned :=
    List.mem_filter.mpr ⟨hvL, by simp [hvun]⟩
  have hvnotR : v.id ∉ removableIdsOf s i z k := by
    have h2 := (List.mem_filter.mp hv).2
    simpa using h2
  have hvsorted : v ∈ unownedDescById s i z :=
    (unownedDescById_perm s i z).mem_iff.mpr hvA
  have hvdrop : v ∈ (unownedDescById s i z).drop k := by
    have hsplit : v ∈ (unownedDescById s i z).take k ++ (unownedDescById s i z).drop k := by
      rw [List.take_append_drop]
      exact hvsorted
    rcases List.mem_append.mp hsplit with h | h
    · exact absurd (List.mem_map.mpr ⟨v, h, rfl⟩) hvnotR
    · exact h
  have hsorted := unownedDescById_sorted s i z
  rw [List.Sorted, ← List.take_append_drop k (unownedDescById s i z)] at hsorted
  have hrel := (List.pairwise_append.mp hsorted).2.2 u hutake v hvdrop
  rcases Nat.lt_or_ge v.id u.id with hlt | hge
  · exact hlt
  · exfalso
    have heq : v.id = u.id := Nat.le_antisymm hrel hge
    have hvunits : v ∈ s.units := List.mem_of_mem_filter hvL
    have : v = u := List.inj_on_of_nodup_map hids hvunits hu heq
    subst this
    exact hvnotR (List.mem_map.mpr ⟨v, hutake, rfl⟩)

theorem deleteState_Wf {s : St} (hwf : Wf s) (R : List Nat) :
    Wf (deleteState s R) := by
  obtain ⟨⟨hnd, hlt⟩, hcode, hkeys⟩ := hwf
  refine ⟨⟨?_, ?_⟩, ?_, ?_⟩
  · rw [deleteState_units]
    exact hnd.sublist ((List.filter_sublist _).map _)
  · intro u hu
    rw [deleteState_units] at hu
    rw [deleteState_nextUnitId]
    exact hlt u (List.mem_of_mem_filter hu)
  · unfold CodesOk
    rw [deleteState_units]
    exact hcode.sublist ((List.filter_sublist _).map _)
  · unfold KeysOk
    rw [deleteState_inventories]
    exact hkeys

/-! ## Theorems: `ensure_units_one` -/

theorem ensure_one_of_lt {s : St} {i : Nat} {z : Size} {q : Nat}
    (h : countUnits s i z < q) :
    ensure_units_one s i z q = (create_units s i z (q - countUnits s i z)).bind
      fun s1 => .ok (refresh_inventory_for_size s1 i z) := by
  simp [ensure_units_one, h, bind]

theorem ensure_one_of_gt {s : St} {i : Nat} {z : Size} {q : Nat}
    (h : q < countUnits s i z) :
    ensure_units_one s i z q =
      .ok (refresh_inventory_for_size
        (deleteState s (removableIdsOf s i z (countUnits s i z - q))) i z) := by
  have hnlt : ¬countUnits s i z < q := Nat.lt_asymm h
  simp [ensure_units_one, hnlt, h, bind, Except.bind]

theorem ensure_one_of_eq {s : St} {i : Nat} {z : Size} {q : Nat}
    (h : countUnits s i z = q) :
    ensure_units_one s i z q = .ok (refresh_inventory_for_size s i z) := by
  have hnlt : ¬countUnits s i z < q := by omega
  have hngt : ¬q < countUnits s i z := by omega
  simp [ensure_units_one, hnlt, hngt, bind, Except.bind, pure, Except.pure]

theorem ensure_one_ok {s s' : St} {i : Nat} {z : Size} {q : Nat}
    (hok : ensure_units_one s i z q = .ok s') (hwf : Wf s) :
    Wf s' ∧ s'.items = s.items ∧ s'.templates = s.templates ∧
    GTat s' i z ∧
    q ≤ countUnits s' i z ∧
    (q < countUnits s' i z → countUnowned s' i z = 0) ∧
    countUnits s' i z ≤ max (countUnits s i z) q ∧
    (∀ i' z', ¬(i' = i ∧ z' = z) →
      unitsOf s' i' z' = unitsOf s i' z' ∧ invVals s' i' z' = invVals s i' z') := by
  rcases Nat.lt_trichotomy (countUnits s i z) q with hlt | heq | hgt
  · rw [ensure_one_of_lt hlt] at hok
    cases hcr : create_units s i z (q - countUnits s i z) with
    | error e =>
      rw [hcr] at hok
      exact absurd hok (by simp [Except.bind])
    | ok s1 =>
      rw [hcr] at hok
      simp only [Except.bind, Except.ok.injEq] at hok
      subst hok
      obtain ⟨h1items, h1tpl, h1count, h1off, h1wf⟩ := create_units_ok _ hcr
      have hcount : countUnits (refresh_inventory_for_size s1 i z) i z = q := by
        rw [countUnits_congr (refresh_units s1 i z), h1count]
        omega
      refine ⟨refresh_Wf (h1wf hwf) i z,
              (refresh_items s1 i z).trans h1items,
              (refresh_templates s1 i z).trans h1tpl,
              refresh_GT_at s1 i z, by omega, by intro hq2; omega, by omega, ?_⟩
      intro i' z' hne
      obtain ⟨ho1, ho2⟩ := h1off i' z' hne
      exact ⟨(unitsOf_congr (refresh_units s1 i z) i' z').trans ho1,
             (refresh_invVals_other hne).trans ho2⟩
  · rw [ensure_one_of_eq heq] at hok
    simp only [Except.ok.injEq] at hok
    subst hok
    have hcount : countUnits (refresh_inventory_for_size s i z) i z = q := by
      rw [countUnits_congr (refresh_units s i z)]
      exact heq
    refine ⟨refresh_Wf hwf i z, refresh_items s i z, refresh_templates s i z,
            refresh_GT_at s i z, by omega, by intro hq2; omega, by omega, ?_⟩
    intro i' z' hne
    exact ⟨unitsOf_congr (refresh_units s i z) i' z', refresh_invVals_other hne⟩
  · rw [ensure_one_of_gt hgt] at hok
    simp only [Except.ok.injEq] at hok
    subst hok
    have hids := hwf.1.1
    set k := countUnits s i z - q
    set R := removableIdsOf s i z k
    set sD := deleteState s R
    have hRlen : R.length = min k (countUnowned s i z) := removableIdsOf_length i z k
    have hcU : countUnits sD i z = countUnits s i z - R.length :=
      deleteState_countUnits hids i z k
    have hcW : countUnowned sD i z = countUnowned s i z - R.length :=
      deleteState_countUnowned hids i z k
    have hwle : countUnowned s i z ≤ countUnits s i z := by
      unfold countUnowned countUnits
      exact List.length_filter_le _ _
    have hcount : countUnits (refresh_inventory_for_size sD i z) i z = countUnits sD i z :=
      countUnits_congr (refresh_units sD i z) i z
    have hcw2 : countUnowned (refresh_inventory_for_size sD i z) i z = countUnowned sD i z :=
      countUnowned_congr (refresh_units sD i z) i z
    refine ⟨refresh_Wf (deleteState_Wf hwf R) i z,
            (refresh_items sD i z).trans (deleteState_items s R),
            (refresh_templates sD i z).trans (deleteState_templates s R),
            refresh_GT_at sD i z, by omega, by intro hq2; omega, by omega, ?_⟩
    intro i' z' hne
    refine ⟨(unitsOf_congr (refresh_units sD i z) i' z').trans
              (deleteState_unitsOf_other hids k hne),
            (refresh_invVals_other hne).trans
              (invVals_congr (deleteState_inventories s R) i' z')⟩

theorem ensure_one_settled {s : St} {i : Nat} {z : Size} {q : Nat}
    (h1 : q ≤ countUnits s i z) (h2 : q < countUnits s i z → countUnowned s i z = 0) :
    ensure_units_one s i z q = .ok (refresh_inventory_for_size s i z) := by
  rcases Nat.lt_or_ge q (countUnits s i z) with hgt | hge
  · have hw0 : ((unitsOf s i z).filter unowned).length = 0 := h2 hgt
    have hA : (unitsOf s i z).filter unowned = [] := List.length_eq_zero.mp hw0
    have hR : removableIdsOf s i z (countUnits s i z - q) = [] := by
      simp [removableIdsOf, unownedDescById, hA]
    rw [ensure_one_of_gt hgt, hR]
    rfl
  · exact ensure_one_of_eq (by omega)

/-! ## Theorems: `delete_extra_size` -/

theorem keyU_false_of_ne {i i' : Nat} {z z' : Size} {u : ApparelUnit}
    (h : ¬(i' = i ∧ z' = z)) (hu : u.itemId = i' ∧ u.size = z') :
    keyU i z u = false := by
  rw [Bool.eq_false_iff]
  intro hk
  rw [keyU_eq_true] at hk
  exact h ⟨by rw [← hu.1, hk.1], by rw [← hu.2, hk.2]⟩

theorem delete_extra_units (s : St) (i : Nat) (z : Size) :
    (delete_extra_size s i z).units =
      s.units.filter fun u => !(keyU i z u && unowned u) := by
  simp only [delete_extra_size]
  rw [refresh_units]
  split
  · next hemp =>
    refine (List.filter_eq_self.mpr fun u hu => ?_).symm
    rw [List.isEmpty_iff] at hemp
    cases hk : keyU i z u with
    | false => simp [hk]
    | true =>
      cases hw : unowned u with
      | false => simp [hk, hw]
      | true =>
        exfalso
        have hmem : u ∈ (unitsOf s i z).filter unowned :=
          List.mem_filter.mpr ⟨List.mem_filter.mpr ⟨hu, hk⟩, hw⟩
        rw [hemp] at hmem
        exact absurd hmem (List.not_mem_nil u)
  · rfl

theorem delete_extra_items (s : St) (i : Nat) (z : Size) :
    (delete_extra_size s i z).items = s.items := by
  simp only [delete_extra_size]
  rw [refresh_items]
  split <;> rfl

theorem delete_extra_templates (s : St) (i : Nat) (z : Size) :
    (delete_extra_size s i z).templates = s.templates := by
  simp only [delete_extra_size]
  rw [refresh_templates]
  split <;> rfl

theorem delete_extra_nextUnitId (s : St) (i : Nat) (z : Size) :
    (delete_extra_size s i z).nextUnitId = s.nextUnitId := by
  simp only [delete_extra_size]
  rw [refresh_nextUnitId]
  split <;> rfl

theorem delete_extra_rng (s : St) (i : Nat) (z : Size) :
    (delete_extra_size s i z).rng = s.rng := by
  simp only [delete_extra_size]
  rw [refresh_rng]
  split <;> rfl

theorem delete_extra_invVals_other {s : St} {i i' : Nat} {z z' : Size}
    (hne : ¬(i' = i ∧ z' = z)) :
    invVals (delete_extra_size s i z) i' z' = invVals s i' z' := by
  simp only [delete_extra_size]
  rw [refresh_invVals_other hne]
  split <;> rfl

theorem delete_extra_unitsOf_other {s : St} {i i' : Nat} {z z' : Size}
    (hne : ¬(i' = i ∧ z' = z)) :
    unitsOf (delete_extra_size s i z) i' z' = unitsOf s i' z' := by
  unfold unitsOf
  rw [delete_extra_units]
  refine filter_of_disjoint fun u hu hq => ?_
  rw [keyU_eq_true] at hq
  rw [keyU_false_of_ne hne hq]
  rfl

theorem delete_extra_GT_at (s : St) (i : Nat) (z : Size) :
    GTat (delete_extra_size s i z) i z := by
  simp only [delete_extra_size]
  exact refresh_GT_at _ i z

theorem delete_extra_countUnowned (s : St) (i : Nat) (z : Size) :
    countUnowned (delete_extra_size s i z) i z = 0 := by
  unfold countUnowned
  rw [List.length_eq_zero, List.filter_eq_nil_iff]
  intro u hu hun
  unfold unitsOf at hu
  rw [delete_extra_units] at hu
  have h1 := List.mem_filter.mp hu
  have h2 := List.mem_filter.mp h1.1
  rw [h1.2, hun] at h2
  exact absurd h2.2 (by simp)

theorem delete_extra_Wf {s : St} (hwf : Wf s) (i : Nat) (z : Size) :
    Wf (delete_extra_size s i z) := by
  simp only [delete_extra_size]
  refine refresh_Wf ?_ i z
  split
  · exact hwf
  · obtain ⟨⟨hnd, hlt⟩, hcode, hkeys⟩ := hwf
    exact ⟨⟨hnd.sublist ((List.filter_sublist _).map _),
            fun u hu => hlt u (List.mem_of_mem_filter hu)⟩,
           hcode.sublist ((List.filter_sublist _).map _), hkeys⟩

theorem delete_extra_settled {s : St} {i : Nat} {z : Size}
    (h : countUnowned s i z = 0) :
    delete_extra_size s i z = refresh_inventory_for_size s i z := by
  have hA : (unitsOf s i z).filter unowned = [] := List.length_eq_zero.mp h
  simp [delete_extra_size, hA]

/-! ## Theorems: `ensure_units_from_templates` -/

theorem ensure_fold_ok (tpls : List SizeTemplate) {s s' : St} {i : Nat}
    (hok : List.foldlM (fun acc t => ensure_units_one acc i t.size t.quantity) s tpls
      = .ok s')
    (hnd : (tpls.map (·.size)).Nodup) (hwf : Wf s) :
    Wf s' ∧ s'.items = s.items ∧ s'.templates = s.templates ∧
    (∀ t ∈ tpls, GTat s' i t.size ∧ t.quantity ≤ countUnits s' i t.size ∧
      (t.quantity < countUnits s' i t.size → countUnowned s' i t.size = 0) ∧
      countUnits s' i t.size ≤ max (countUnits s i t.size) t.quantity) ∧
    (∀ i' z', (i' ≠ i ∨ z' ∉ tpls.map (·.size)) →
      unitsOf s' i' z' = unitsOf s i' z' ∧ invVals s' i' z' = invVals s i' z') := by
  induction tpls generalizing s with
  | nil =>
    simp only [List.foldlM_nil, pure, Except.pure, Except.ok.injEq] at hok
    subst hok
    exact ⟨hwf, rfl, rfl, by simp, fun _ _ _ => ⟨rfl, rfl⟩⟩
  | cons t ts ih =>
    rw [List.foldlM_cons] at hok
    cases h1 : ensure_units_one s i t.size t.quantity with
    | error e =>
      rw [h1] at hok
      exact absurd hok (by simp [bind, Except.bind])
    | ok s1 =>
      rw [h1] at hok
      simp only [bind, Except.bind] at hok
      obtain ⟨hwf1, h1items, h1tpl, hGT1, hcnt1, hunw1, hmax1, hoff1⟩ := ensure_one_ok h1 hwf
      have hndc : (t.size :: ts.map (·.size)).Nodup := by simpa using hnd
      have hndts : (ts.map (·.size)).Nodup := (List.nodup_cons.mp hndc).2
      have hhead : t.size ∉ ts.map (·.size) := (List.nodup_cons.mp hndc).1
      obtain ⟨hwf', hitems, htplf, htfacts, hoff⟩ := ih hok hndts hwf1
      refine ⟨hwf', hitems.trans h1items, htplf.trans h1tpl, ?_, ?_⟩
      · intro t' ht'
        rcases List.mem_cons.mp ht' with rfl | ht'
        · obtain ⟨hu, hv⟩ := hoff i t'.size (Or.inr hhead)
          have hcu : countUnits s' i t'.size = countUnits s1 i t'.size := by
            unfold countUnits
            rw [hu]
          have hcw : countUnowned s' i t'.size = countUnowned s1 i t'.size := by
            unfold countUnowned
            rw [hu]
          refine ⟨GTat_congr hu hv hGT1, by omega, ?_, by omega⟩
          intro hx
          rw [hcw]
          exact hunw1 (by omega)
        · obtain ⟨hg, hle, himp, hmaxt⟩ := htfacts t' ht'
          have hne2 : ¬(i = i ∧ t'.size = t.size) := by
            intro hc
            exact hhead (hc.2 ▸ List.mem_map.mpr ⟨t', ht', rfl⟩)
          obtain ⟨hu1, _⟩ := hoff1 i t'.size hne2
          have hceq : countUnits s1 i t'.size = countUnits s i t'.size := by
            unfold countUnits
            rw [hu1]
          exact ⟨hg, hle, himp, by omega⟩
      · intro i' z' hcond
        have hcond1 : i' ≠ i ∨ z' ∉ ts.map (·.size) := by
          rcases hcond with h | h
          · exact Or.inl h
          · simp only [List.map_cons, List.mem_cons, not_or] at h
            exact Or.inr h.2
        have hcondone : ¬(i' = i ∧ z' = t.size) := by
          rcases hcond with h | h
          · exact fun hc => h hc.1
          · simp only [List.map_cons, List.mem_cons, not_or] at h
            exact fun hc => h.1 hc.2
        obtain ⟨ha, hb⟩ := hoff i' z' hcond1
        obtain ⟨hc, hd⟩ := hoff1 i' z' hcondone
        exact ⟨ha.trans hc, hb.trans hd⟩

theorem extra_fold_facts (zs : List Size) :
    ∀ (s : St) (i : Nat), zs.Nodup → Wf s →
    Wf (zs.foldl (fun acc z => delete_extra_size acc i z) s) ∧
    (zs.foldl (fun acc z => delete_extra_size acc i z) s).items = s.items ∧
    (zs.foldl (fun acc z => delete_extra_size acc i z) s).templates = s.templates ∧
    (zs.foldl (fun acc z => delete_extra_size acc i z) s).nextUnitId = s.nextUnitId ∧
    (zs.foldl (fun acc z => delete_extra_size acc i z) s).rng = s.rng ∧
    (∀ z ∈ zs, GTat (zs.foldl (fun acc z => delete_extra_size acc i z) s) i z ∧
      countUnowned (zs.foldl (fun acc z => delete_extra_size acc i z) s) i z = 0) ∧
    (∀ i' z', (i' ≠ i ∨ z' ∉ zs) →
      unitsOf (zs.foldl (fun acc z => delete_extra_size acc i z) s) i' z'
        = unitsOf s i' z' ∧
      invVals (zs.foldl (fun acc z => delete_extra_size acc i z) s) i' z'
        = invVals s i' z') := by
  induction zs with
  | nil =>
    intro s i _ hwf
    exact ⟨hwf, rfl, rfl, rfl, rfl, by simp, fun _ _ _ => ⟨rfl, rfl⟩⟩
  | cons z zs ih =>
    intro s i hnd hwf
    rw [List.foldl_cons]
    have hhead : z ∉ zs := (List.nodup_cons.mp hnd).1
    obtain ⟨hwf', hitems, htpl, hnext, hrng, hfacts, hoff⟩ :=
      ih (delete_extra_size s i z) i (List.nodup_cons.mp hnd).2 (delete_extra_Wf hwf i z)
    refine ⟨hwf', hitems.trans (delete_extra_items s i z),
            htpl.trans (delete_extra_templates s i z),
            hnext.trans (delete_extra_nextUnitId s i z),
            hrng.trans (delete_extra_rng s i z), ?_, ?_⟩
    · intro z' hz'
      rcases List.mem_cons.mp hz' with rfl | hz'
      · obtain ⟨hu, hv⟩ := hoff i z' (Or.inr hhead)
        have hcw : countUnowned (zs.foldl (fun acc z => delete_extra_size acc i z)
            (delete_extra_size s i z')) i z'
            = countUnowned (delete_extra_size s i z') i z' := by
          unfold countUnowned
          rw [hu]
        exact ⟨GTat_congr hu hv (delete_extra_GT_at s i z'),
               hcw.trans (delete_extra_countUnowned s i z')⟩
      · exact hfacts z' hz'
    · intro i' z' hcond
      have hcond1 : i' ≠ i ∨ z' ∉ zs := by
        rcases hcond with h | h
        · exact Or.inl h
        · simp only [List.mem_cons, not_or] at h
          exact Or.inr h.2
      have hcondone : ¬(i' = i ∧ z' = z) := by
        rcases hcond with h | h
        · exact fun hc => h hc.1
        · simp only [List.mem_cons, not_or] at h
          exact fun hc => h.1 hc.2
      obtain ⟨ha, hb⟩ := hoff i' z' hcond1
      exact ⟨ha.trans (delete_extra_unitsOf_other hcondone),
             hb.trans (delete_extra_invVals_other hcondone)⟩

theorem mem_extra_iff {sF : St} {i : Nat} {tplSizes : List Size} {z : Size} :
    z ∈ sizeOrder.filter
        (fun z => decide (z ∉ tplSizes) && !(unitsOf sF i z).isEmpty) ↔
      z ∉ tplSizes ∧ unitsOf sF i z ≠ [] := by
  rw [List.mem_filter]
  simp [mem_sizeOrder, List.isEmpty_iff]

theorem ensure_from_ok {s s' : St} {it : Item}
    (hok : ensure_units_from_templates s it = .ok s') (hwf : Wf s) :
    Wf s' ∧ s'.items = s.items ∧ s'.templates = s.templates ∧
    (∀ z ∈ (templatesFor s it.collectionId).map (·.size), GTat s' it.id z) ∧
    (∀ t ∈ templatesFor s it.collectionId,
       t.quantity ≤ countUnits s' it.id t.size ∧
       (t.quantity < countUnits s' it.id t.size → countUnowned s' it.id t.size = 0) ∧
       countUnits s' it.id t.size ≤ max (countUnits s it.id t.size) t.quantity) ∧
    (∀ z, z ∉ (templatesFor s it.collectionId).map (·.size) →
       (unitsOf s it.id z = [] →
          unitsOf s' it.id z = unitsOf s it.id z ∧
          invVals s' it.id z = invVals s it.id z) ∧
       (unitsOf s it.id z ≠ [] → GTat s' it.id z) ∧
       countUnowned s' it.id z = 0) ∧
    (∀ i' z', i' ≠ it.id →
       unitsOf s' i' z' = unitsOf s i' z' ∧ invVals s' i' z' = invVals s i' z') := by
  simp only [ensure_units_from_templates, bind, Except.bind] at hok
  cases hfold : List.foldlM
      (fun acc t => ensure_units_one acc it.id t.size t.quantity) s
      (templatesFor s it.collectionId) with
  | error e =>
    rw [hfold] at hok
    exact absurd hok (by simp)
  | ok sF =>
    rw [hfold] at hok
    simp only [Except.ok.injEq] at hok
    subst hok
    obtain ⟨hwfF, hFitems, hFtpl, hFfacts, hFoff⟩ :=
      ensure_fold_ok _ hfold (templatesFor_sizes_nodup s it.collectionId) hwf
    set tplSizes := (templatesFor s it.collectionId).map (·.size) with htplSizes
    set E := sizeOrder.filter
      (fun z => decide (z ∉ tplSizes) && !(unitsOf sF it.id z).isEmpty) with hE
    have hEnd : E.Nodup := (by decide : sizeOrder.Nodup).filter _
    obtain ⟨hwf', hitems, htpl, _, _, hfactsE, hoffE⟩ :=
      extra_fold_facts E sF it.id hEnd hwfF
    have hmemE : ∀ z, z ∈ E ↔ (z ∉ tplSizes ∧ unitsOf sF it.id z ≠ []) :=
      fun z => mem_extra_iff
    refine ⟨hwf', hitems.trans hFitems, htpl.trans hFtpl, ?_, ?_, ?_, ?_⟩
    · intro z hz
      have hzE : z ∉ E := fun hmem => ((hmemE z).mp hmem).1 hz
      obtain ⟨hu, hv⟩ := hoffE it.id z (Or.inr hzE)
      obtain ⟨t, ht, htz⟩ := List.mem_map.mp hz
      exact GTat_congr hu hv (htz ▸ (hFfacts t ht).1)
    · intro t ht
      have hz : t.size ∈ tplSizes := List.mem_map.mpr ⟨t, ht, rfl⟩
      have hzE : t.size ∉ E := fun hmem => ((hmemE _).mp hmem).1 hz
      obtain ⟨hu, hv⟩ := hoffE it.id t.size (Or.inr hzE)
      have hcu : countUnits (E.foldl (fun acc z => delete_extra_size acc it.id z) sF)
          it.id t.size = countUnits sF it.id t.size := by
        unfold countUnits
        rw [hu]
      have hcw : countUnowned (E.foldl (fun acc z => delete_extra_size acc it.id z) sF)
          it.id t.size = countUnowned sF it.id t.size := by
        unfold countUnowned
        rw [hu]
      obtain ⟨_, hle, himp, hmaxF⟩ := hFfacts t ht
      refine ⟨by omega, fun hlt => ?_, by omega⟩
      rw [hcw]
      exact himp (by omega)
    · intro z hz
      obtain ⟨huF, hvF⟩ := hFoff it.id z (Or.inr hz)
      by_cases hzE : z ∈ E
      · obtain ⟨hGT, hcw⟩ := hfactsE z hzE
        have hne : unitsOf sF it.id z ≠ [] := ((hmemE z).mp hzE).2
        refine ⟨fun hnil => absurd (huF.trans hnil) hne, fun _ => hGT, hcw⟩
      · have hnil : unitsOf sF it.id z = [] := by
          by_contra hne
          exact hzE ((hmemE z).mpr ⟨hz, hne⟩)
        obtain ⟨hu, hv⟩ := hoffE it.id z (Or.inr hzE)
        refine ⟨fun _ => ⟨hu.trans huF, hv.trans hvF⟩, ?_, ?_⟩
        · intro hne
          exact absurd (huF.symm.trans hnil) hne
        · unfold countUnowned
          rw [hu, hnil]
          rfl
    · intro i' z' hne
      obtain ⟨ha, hb⟩ := hoffE i' z' (Or.inl hne)
      obtain ⟨hc, hd⟩ := hFoff i' z' (Or.inl hne)
      exact ⟨ha.trans hc, hb.trans hd⟩

/-! ## Theorems: `item_save` preserves the invariant -/

theorem KeysOk_congr {s s' : St} (h : s'.inventories = s.inventories) :
    KeysOk s → KeysOk s' := by
  simp only [KeysOk, h]
  exact id

theorem item_row_save_units (s : St) (it : Item) :
    (item_row_save s it).units = s.units := by
  unfold item_row_save
  split <;> rfl

theorem item_row_save_templates (s : St) (it : Item) :
    (item_row_save s it).templates = s.templates := by
  unfold item_row_save
  split <;> rfl

theorem item_row_save_inventories (s : St) (it : Item) :
    (item_row_save s it).inventories = s.inventories := by
  unfold item_row_save
  split <;> rfl

theorem item_row_save_nextUnitId (s : St) (it : Item) :
    (item_row_save s it).nextUnitId = s.nextUnitId := by
  unfold item_row_save
  split <;> rfl

theorem item_row_save_rng (s : St) (it : Item) :
    (item_row_save s it).rng = s.rng := by
  unfold item_row_save
  split <;> rfl

theorem item_save_ok_elim {s s' : St} {it : Item}
    (hok : item_save s it = .ok s') :
    ¬(templatesFor s it.collectionId).isEmpty ∧
    ensure_units_from_templates
      (sync_inventory_from_collection (item_row_save s it) it) it = .ok s' := by
  unfold item_save at hok
  split at hok
  · exact absurd hok (by simp)
  · next hne => exact ⟨by simpa using hne, hok⟩

theorem item_save_Inv {s s' : St} {it : Item}
    (hok : item_save s it = .ok s') (hinv : Inv s) : Inv s' := by
  obtain ⟨⟨hids, hcodes, hkeys⟩, hGT⟩ := hinv
  obtain ⟨_, hens⟩ := item_save_ok_elim hok
  set s1 := item_row_save s it with hs1
  set s2 := sync_inventory_from_collection s1 it with hs2
  have h1units : s1.units = s.units := item_row_save_units s it
  have h1inv : s1.inventories = s.inventories := item_row_save_inventories s it
  have h1tpl : s1.templates = s.templates := item_row_save_templates s it
  have h1next : s1.nextUnitId = s.nextUnitId := item_row_save_nextUnitId s it
  have h2units : s2.units = s.units := (sync_from_units s1 it).trans h1units
  have h2tpl : s2.templates = s.templates := (sync_from_templates s1 it).trans h1tpl
  have h2next : s2.nextUnitId = s.nextUnitId :=
    (sync_from_nextUnitId s1 it).trans h1next
  have htplEq : templatesFor s2 it.collectionId = templatesFor s it.collectionId :=
    templatesFor_congr h2tpl it.collectionId
  have htplEq1 : templatesFor s1 it.collectionId = templatesFor s it.collectionId :=
    templatesFor_congr h1tpl it.collectionId
  have hWf2 : Wf s2 :=
    ⟨IdsOk_congr h2units h2next hids, CodesOk_congr h2units hcodes,
     sync_from_KeysOk (KeysOk_congr h1inv hkeys) it⟩
  obtain ⟨hwf', hitems', htpl', hGTtpl, _, hnonTpl, hoffItem⟩ := ensure_from_ok hens hWf2
  refine ⟨hwf', ?_⟩
  intro i z
  by_cases hi : i = it.id
  · subst hi
    by_cases hz : z ∈ (templatesFor s2 it.collectionId).map (·.size)
    · exact hGTtpl z hz
    · obtain ⟨hcaseEmpty, hcaseNon, _⟩ := hnonTpl z hz
      by_cases hu0 : unitsOf s2 it.id z = []
      · obtain ⟨hueq, hveq⟩ := hcaseEmpty hu0
        have hz1 : z ∉ (templatesFor s1 it.collectionId).map (·.size) := by
          rw [htplEq1, ← htplEq]
          exact hz
        have hvnone : invVals s2 it.id z = none := by
          have hfr : findRow s2 it.id z = none := sync_from_findRow_nonTpl hz1
          simp [invVals, hfr]
        unfold GTat
        have hcnt : countUnits s' it.id z = 0 := by
          unfold countUnits
          rw [hueq, hu0]
          rfl
        rw [hcnt, if_pos rfl, hveq, hvnone]
      · exact hcaseNon hu0
  · obtain ⟨hueq, hveq⟩ := hoffItem i z hi
    have hu2 : unitsOf s2 i z = unitsOf s i z := unitsOf_congr h2units i z
    have hfr2 : findRow s2 i z = findRow s i z := by
      have ha : findRow s2 i z = findRow s1 i z := sync_from_findRow_otherItem hi
      rw [ha]
      unfold findRow
      rw [h1inv]
    have hv2 : invVals s2 i z = invVals s i z := by
      simp [invVals, hfr2]
    exact GTat_congr (hueq.trans hu2) (hveq.trans hv2) (hGT i z)

/-! ## Theorems: pointwise update machinery for `unit_save` / `unit_delete` -/

theorem applyAt_cons (uid : Nat) (f : ApparelUnit → ApparelUnit)
    (x : ApparelUnit) (xs : List ApparelUnit) :
    applyAt uid f (x :: xs) = (if x.id = uid then f x else x) :: applyAt uid f xs := rfl

theorem applyAt_id_of_not_mem {xs : List ApparelUnit} {uid : Nat}
    {f : ApparelUnit → ApparelUnit} (h : ∀ u ∈ xs, u.id ≠ uid) :
    applyAt uid f xs = xs := by
  unfold applyAt
  refine (List.map_congr_left fun u hu => ?_).trans (List.map_id xs)
  rw [if_neg (h u hu)]
  rfl

theorem applyAt_congr {l : List ApparelUnit} {uid : Nat}
    {f g : ApparelUnit → ApparelUnit}
    (h : ∀ u ∈ l, u.id = uid → f u = g u) :
    applyAt uid f l = applyAt uid g l := by
  unfold applyAt
  refine List.map_congr_left fun u hu => ?_
  by_cases hx : u.id = uid
  · simp [hx, h u hu hx]
  · simp [hx]

theorem applyAt_applyAt {l : List ApparelUnit} (uid : Nat)
    (f g : ApparelUnit → ApparelUnit) (hg : ∀ u, (g u).id = u.id) :
    applyAt uid f (applyAt uid g l) = applyAt uid (fun u => f (g u)) l := by
  unfold applyAt
  rw [List.map_map]
  refine List.map_congr_left fun u _ => ?_
  by_cases hu : u.id = uid
  · simp [Function.comp, hu, hg]
  · simp [Function.comp, hu]

theorem applyAt_map_field {l : List ApparelUnit} {uid : Nat}
    (f : ApparelUnit → ApparelUnit) {β : Type _}
    (g : ApparelUnit → β) (hg : ∀ u, g (f u) = g u) :
    (applyAt uid f l).map g = l.map g := by
  unfold applyAt
  rw [List.map_map]
  refine List.map_congr_left fun u _ => ?_
  by_cases hu : u.id = uid
  · simp [Function.comp, hu, hg]
  · simp [Function.comp, hu]

theorem replaceFirst_byId_eq {l : List ApparelUnit}
    (hnd : (l.map (·.id)).Nodup) (uid : Nat) (f : ApparelUnit → ApparelUnit) :
    replaceFirst (byId uid) f l = applyAt uid f l := by
  induction l with
  | nil => rfl
  | cons x xs ih =>
    simp only [List.map_cons, List.nodup_cons] at hnd
    rw [applyAt_cons]
    by_cases hx : x.id = uid
    · have hbx : byId uid x = true := by simp [byId, hx]
      simp only [replaceFirst, hbx, if_true, if_pos hx]
      congr 1
      exact (applyAt_id_of_not_mem fun u hu he =>
        hnd.1 (List.mem_map.mpr ⟨u, hu, he.trans hx.symm⟩)).symm
    · have hbx : ¬(byId uid x = true) := by simp [byId, hx]
      simp only [replaceFirst, if_neg hbx, if_neg hx]
      congr 1
      exact ih hnd.2

theorem removeFirst_eq_filter {l : List ApparelUnit}
    (hnd : (l.map (·.id)).Nodup) (uid : Nat) :
    removeFirst (byId uid) l = l.filter fun u => !(byId uid u) := by
  induction l with
  | nil => rfl
  | cons x xs ih =>
    simp only [List.map_cons, List.nodup_cons] at hnd
    by_cases hx : x.id = uid
    · have hbx : byId uid x = true := by simp [byId, hx]
      simp only [removeFirst, hbx, if_true, List.filter_cons, Bool.not_true, if_false]
      refine (List.filter_eq_self.mpr fun u hu => ?_).symm
      have : u.id ≠ uid := fun he =>
        hnd.1 (List.mem_map.mpr ⟨u, hu, he.trans hx.symm⟩)
      simp [byId, this]
    · have hbx : ¬(byId uid x = true) := by simp [byId, hx]
      simp only [removeFirst, if_neg hbx, List.filter_cons]
      rw [if_pos (show (!(byId uid x)) = true by simp [byId, hx])]
      congr 1
      exact ih hnd.2

theorem length_filter_applyAt {l : List ApparelUnit} {uid : Nat}
    (f : ApparelUnit → ApparelUnit) {prev : ApparelUnit}
    (hnd : (l.map (·.id)).Nodup) (hf : l.find? (byId uid) = some prev)
    (p : ApparelUnit → Bool) :
    ((applyAt uid f l).filter p).length + (if p prev then 1 else 0) =
      (l.filter p).length + (if p (f prev) then 1 else 0) := by
  induction l with
  | nil => simp at hf
  | cons x xs ih =>
    simp only [List.map_cons, List.nodup_cons] at hnd
    rw [applyAt_cons]
    by_cases hx : x.id = uid
    · rw [List.find?_cons_of_pos _ (by simp [byId, hx])] at hf
      injection hf with hf
      subst hf
      rw [if_pos hx]
      rw [applyAt_id_of_not_mem fun u hu he =>
        hnd.1 (List.mem_map.mpr ⟨u, hu, he.trans hx.symm⟩)]
      by_cases hpx : p x = true <;> by_cases hpf : p (f x) = true <;>
        simp [List.filter_cons, hpx, hpf] <;> omega
    · rw [List.find?_cons_of_neg _ (by simp [byId, hx])] at hf
      have hrec := ih hnd.2 hf
      rw [if_neg hx]
      by_cases hpx : p x = true <;> simp [List.filter_cons, hpx] <;> omega

theorem find?_byId_applyAt {l : List ApparelUnit} {uid : Nat}
    {f : ApparelUnit → ApparelUnit} {prev : ApparelUnit}
    (hnd : (l.map (·.id)).Nodup) (hf : l.find? (byId uid) = some prev)
    (hfid : (f prev).id = prev.id) :
    (applyAt uid f l).find? (byId uid) = some (f prev) := by
  induction l with
  | nil => simp at hf
  | cons x xs ih =>
    simp only [List.map_cons, List.nodup_cons] at hnd
    rw [applyAt_cons]
    by_cases hx : x.id = uid
    · rw [List.find?_cons_of_pos _ (by simp [byId, hx])] at hf
      injection hf with hf
      subst hf
      rw [if_pos hx]
      rw [List.find?_cons_of_pos _ (by simp [byId, hfid, hx])]
    · rw [List.find?_cons_of_neg _ (by simp [byId, hx])] at hf
      rw [if_neg hx]
      rw [List.find?_cons_of_neg _ (by simp [byId, hx])]
      exact ih hnd.2 hf

theorem filter_applyAt_other {l : List ApparelUnit} {uid : Nat}
    {f : ApparelUnit → ApparelUnit} {prev : ApparelUnit}
    (hnd : (l.map (·.id)).Nodup) (hf : l.find? (byId uid) = some prev)
    {p : ApparelUnit → Bool} (hp : p prev = false) (hpf : p (f prev) = false) :
    (applyAt uid f l).filter p = l.filter p := by
  induction l with
  | nil => rfl
  | cons x xs ih =>
    simp only [List.map_cons, List.nodup_cons] at hnd
    rw [applyAt_cons]
    by_cases hx : x.id = uid
    · rw [List.find?_cons_of_pos _ (by simp [byId, hx])] at hf
      injection hf with hf
      subst hf
      rw [if_pos hx]
      rw [applyAt_id_of_not_mem fun u hu he =>
        hnd.1 (List.mem_map.mpr ⟨u, hu, he.trans hx.symm⟩)]
      simp [List.filter_cons, hp, hpf]
    · rw [List.find?_cons_of_neg _ (by simp [byId, hx])] at hf
      rw [if_neg hx]
      by_cases hpx : p x = true <;> simp [List.filter_cons, hpx, ih hnd.2 hf]

/-! ## Theorems: `unit_save` -/

theorem unit_save_ok_elim {s : St} {uid : Nat} {o : Option Nat} {nz : Size}
    {now : Nat} {prev : ApparelUnit}
    (hf : s.units.find? (byId uid) = some prev) :
    unit_save s uid o nz now = .ok (
      if prev.size ≠ nz then
        refresh_inventory_for_size
          (refresh_inventory_for_size (unitSaveMid s uid o nz now prev)
            prev.itemId nz)
          prev.itemId prev.size
      else
        refresh_inventory_for_size (unitSaveMid s uid o nz now prev)
          prev.itemId nz) := by
  simp only [unit_save, hf]
  rfl

theorem unitSaveMid_units {s : St} {uid : Nat} {o : Option Nat} {nz : Size}
    {now : Nat} {prev : ApparelUnit}
    (hnd : (s.units.map (·.id)).Nodup) (hf : s.units.find? (byId uid) = some prev) :
    (unitSaveMid s uid o nz now prev).units =
      applyAt uid
        (fun u =>
          { u with size := nz, owner := o, assignedAt := assignedAtAfter prev o now })
        s.units := by
  have hprevmem : prev ∈ s.units := List.mem_of_find?_eq_some hf
  have hprevid : prev.id = uid := by
    have := List.find?_some hf
    simpa [byId] using this
  simp only [unitSaveMid]
  split
  · next hne =>
    show replaceFirst (byId uid) _ (replaceFirst (byId uid) _ s.units) = _
    rw [replaceFirst_byId_eq hnd uid]
    have hnd1 : ((applyAt uid (fun u => { u with owner := o, size := nz })
        s.units).map (·.id)).Nodup := by
      rw [applyAt_map_field (fun u => { u with owner := o, size := nz }) (·.id)
        fun u => rfl]
      exact hnd
    rw [replaceFirst_byId_eq hnd1 uid]
    rw [applyAt_applyAt uid
      (fun u => { u with assignedAt := assignedAtAfter prev o now })
      (fun u => { u with owner := o, size := nz }) fun u => rfl]
  · next hne =>
    push_neg at hne
    show replaceFirst (byId uid) _ s.units = _
    rw [replaceFirst_byId_eq hnd uid]
    refine applyAt_congr fun u hu hid => ?_
    have hup : u = prev :=
      List.inj_on_of_nodup_map hnd hu hprevmem (hid.trans hprevid.symm)
    subst hup
    rw [hne]

theorem unitSaveMid_items (s : St) (uid : Nat) (o : Option Nat) (nz : Size)
    (now : Nat) (prev : ApparelUnit) :
    (unitSaveMid s uid o nz now prev).items = s.items := by
  simp only [unitSaveMid]
  split <;> rfl

theorem unitSaveMid_templates (s : St) (uid : Nat) (o : Option Nat) (nz : Size)
    (now : Nat) (prev : ApparelUnit) :
    (unitSaveMid s uid o nz now prev).templates = s.templates := by
  simp only [unitSaveMid]
  split <;> rfl

theorem unitSaveMid_inventories (s : St) (uid : Nat) (o : Option Nat) (nz : Size)
    (now : Nat) (prev : ApparelUnit) :
    (unitSaveMid s uid o nz now prev).inventories = s.inventories := by
  simp only [unitSaveMid]
  split <;> rfl

theorem unitSaveMid_nextUnitId (s : St) (uid : Nat) (o : Option Nat) (nz : Size)
    (now : Nat) (prev : ApparelUnit) :
    (unitSaveMid s uid o nz now prev).nextUnitId = s.nextUnitId := by
  simp only [unitSaveMid]
  split <;> rfl

theorem unitSaveMid_rng (s : St) (uid : Nat) (o : Option Nat) (nz : Size)
    (now : Nat) (prev : ApparelUnit) :
    (unitSaveMid s uid o nz now prev).rng = s.rng := by
  simp only [unitSaveMid]
  split <;> rfl

theorem unit_save_master {s s' : St} {uid : Nat} {o : Option Nat} {nz : Size}
    {now : Nat} {prev : ApparelUnit}
    (hf : s.units.find? (byId uid) = some prev)
    (hnd : (s.units.map (·.id)).Nodup)
    (hok : unit_save s uid o nz now = .ok s') :
    s'.units = applyAt uid
      (fun u =>
        { u with size := nz, owner := o, assignedAt := assignedAtAfter prev o now })
      s.units ∧
    s'.items = s.items ∧ s'.templates = s.templates ∧
    s'.nextUnitId = s.nextUnitId ∧ s'.rng = s.rng ∧
    GTat s' prev.itemId nz ∧ GTat s' prev.itemId prev.size ∧
    (∀ i' z', ¬(i' = prev.itemId ∧ z' = nz) → ¬(i' = prev.itemId ∧ z' = prev.size) →
      invVals s' i' z' = invVals s i' z') ∧
    (KeysOk s → KeysOk s') := by
  rw [unit_save_ok_elim hf] at hok
  simp only [Except.ok.injEq] at hok
  subst hok
  set sM := unitSaveMid s uid o nz now prev with hsM
  have hMunits : sM.units = applyAt uid
      (fun u =>
        { u with size := nz, owner := o, assignedAt := assignedAtAfter prev o now })
      s.units :=
    unitSaveMid_units hnd hf
  by_cases hsz : prev.size ≠ nz
  · rw [if_pos hsz]
    set s3 := refresh_inventory_for_size sM prev.itemId nz with hs3
    refine ⟨?_, ?_, ?_, ?_, ?_, ?_, ?_, ?_, ?_⟩
    · rw [refresh_units, hs3, refresh_units, hMunits]
    · rw [refresh_items, hs3, refresh_items, unitSaveMid_items]
    · rw [refresh_templates, hs3, refresh_templates, unitSaveMid_templates]
    · rw [refresh_nextUnitId, hs3, refresh_nextUnitId, unitSaveMid_nextUnitId]
    · rw [refresh_rng, hs3, refresh_rng, unitSaveMid_rng]
    · exact refresh_GTat_other (fun hc => hsz (hc.2.symm)) (refresh_GT_at sM prev.itemId nz)
    · exact refresh_GT_at s3 prev.itemId prev.size
    · intro i' z' hA hB
      rw [refresh_invVals_other hB, hs3, refresh_invVals_other hA]
      exact invVals_congr (unitSaveMid_inventories s uid o nz now prev) i' z'
    · intro hk
      exact refresh_KeysOk (refresh_KeysOk (KeysOk_congr
        (unitSaveMid_inventories s uid o nz now prev) hk) prev.itemId nz)
        prev.itemId prev.size
  · rw [if_neg hsz]
    push_neg at hsz
    refine ⟨?_, ?_, ?_, ?_, ?_, ?_, ?_, ?_, ?_⟩
    · rw [refresh_units, hMunits]
    · rw [refresh_items, unitSaveMid_items]
    · rw [refresh_templates, unitSaveMid_templates]
    · rw [refresh_nextUnitId, unitSaveMid_nextUnitId]
    · rw [refresh_rng, unitSaveMid_rng]
    · exact refresh_GT_at sM prev.itemId nz
    · rw [hsz]
      exact refresh_GT_at sM prev.itemId nz
    · intro i' z' hA hB
      rw [refresh_invVals_other hA]
      exact invVals_congr (unitSaveMid_inventories s uid o nz now prev) i' z'
    · intro hk
      exact refresh_KeysOk (KeysOk_congr
        (unitSaveMid_inventories s uid o nz now prev) hk) prev.itemId nz

theorem unit_save_Inv {s s' : St} {uid : Nat} {o : Option Nat} {nz : Size}
    {now : Nat}
    (hok : unit_save s uid o nz now = .ok s') (hinv : Inv s) : Inv s' := by
  obtain ⟨⟨⟨hnd, hlt⟩, hcodes, hkeys⟩, hGT⟩ := hinv
  cases hf : s.units.find? (byId uid) with
  | none =>
    simp only [unit_save, hf] at hok
    exact absurd hok (by simp)
  | some prev =>
    obtain ⟨hunits, hitems, htpl, hnext, hrng, hGTnz, hGTold, hoffv, hk⟩ :=
      unit_save_master hf hnd hok
    refine ⟨⟨⟨?_, ?_⟩, ?_, hk hkeys⟩, ?_⟩
    · rw [hunits, applyAt_map_field
        (fun u =>
          { u with size := nz, owner := o, assignedAt := assignedAtAfter prev o now })
        (·.id) fun u => rfl]
      exact hnd
    · intro u hu
      rw [hunits] at hu
      obtain ⟨v, hv, hvu⟩ := List.mem_map.mp hu
      rw [hnext]
      have hid : u.id = v.id := by
        subst hvu
        by_cases hx : v.id = uid <;> simp [hx]
      rw [hid]
      exact hlt v hv
    · rw [CodesOk, hunits, applyAt_map_field
        (fun u =>
          { u with size := nz, owner := o, assignedAt := assignedAtAfter prev o now })
        (·.accessCode) fun u => rfl]
      exact hcodes
    · intro i z
      by_cases h1 : i = prev.itemId ∧ z = nz
      · obtain ⟨hi, hz⟩ := h1
        subst hi
        subst hz
        exact hGTnz
      · by_cases h2 : i = prev.itemId ∧ z = prev.size
        · obtain ⟨hi, hz⟩ := h2
          subst hi
          subst hz
          exact hGTold
        · have hv := hoffv i z h1 h2
          have hu : unitsOf s' i z = unitsOf s i z := by
            unfold unitsOf
            rw [hunits]
            refine filter_applyAt_other hnd hf ?_ ?_
            · rw [Bool.eq_false_iff]
              intro hkk
              rw [keyU_eq_true] at hkk
              exact h2 ⟨hkk.1.symm, hkk.2.symm⟩
            · rw [Bool.eq_false_iff]
              intro hkk
              rw [keyU_eq_true] at hkk
              exact h1 ⟨hkk.1.symm, hkk.2.symm⟩
          exact GTat_congr hu hv (hGT i z)

/-! ## Theorems: `unit_delete` -/

theorem unit_delete_Inv {s s' : St} {uid : Nat}
    (hok : unit_delete s uid = .ok s') (hinv : Inv s) : Inv s' := by
  obtain ⟨⟨⟨hnd, hlt⟩, hcodes, hkeys⟩, hGT⟩ := hinv
  cases hf : s.units.find? (byId uid) with
  | none =>
    simp only [unit_delete, hf] at hok
    exact absurd hok (by simp)
  | some u =>
    simp only [unit_delete, hf, Except.ok.injEq] at hok
    subst hok
    set sD : St := { s with units := removeFirst (byId uid) s.units,
                            writes := s.writes + 1 } with hsD
    have hDunits : sD.units = s.units.filter fun v => !(byId uid v) :=
      removeFirst_eq_filter hnd uid
    have humem : u ∈ s.units := List.mem_of_find?_eq_some hf
    have huid : u.id = uid := by
      have := List.find?_some hf
      simpa [byId] using this
    have hWfD : Wf sD := by
      refine ⟨⟨?_, ?_⟩, ?_, hkeys⟩
      · rw [hDunits]
        exact hnd.sublist ((List.filter_sublist _).map _)
      · intro v hv
        rw [hDunits] at hv
        exact hlt v (List.mem_of_mem_filter hv)
      · rw [CodesOk, hDunits]
        exact hcodes.sublist ((List.filter_sublist _).map _)
    refine ⟨refresh_Wf hWfD u.itemId u.size, ?_⟩
    intro i z
    by_cases h1 : i = u.itemId ∧ z = u.size
    · obtain ⟨hi, hz⟩ := h1
      subst hi
      subst hz
      exact refresh_GT_at sD u.itemId u.size
    · have huOf : unitsOf (refresh_inventory_for_size sD u.itemId u.size) i z
          = unitsOf s i z := by
        rw [unitsOf_congr (refresh_units sD u.itemId u.size)]
        unfold unitsOf
        rw [hDunits]
        refine filter_of_disjoint fun v hv hq => ?_
        rw [keyU_eq_true] at hq
        rw [Bool.eq_false_iff]
        intro hbv
        rw [byId_eq_true] at hbv
        have : v = u := List.inj_on_of_nodup_map hnd hv humem (hbv.trans huid.symm)
        subst this
        exact h1 ⟨hq.1.symm, hq.2.symm⟩
      have hvv : invVals (refresh_inventory_for_size sD u.itemId u.size) i z
          = invVals s i z :=
        (refresh_invVals_other h1).trans rfl
      exact GTat_congr huOf hvv (hGT i z)

/-! ## Theorems: the invariant holds in every reachable state -/

theorem apply_Inv {s s' : St} {op : Op}
    (hok : apply s op = .ok s') (hinv : Inv s) : Inv s' := by
  cases op with
  | itemSave it => exact item_save_Inv hok hinv
  | unitSave uid o z t => exact unit_save_Inv hok hinv
  | unitDelete uid => exact unit_delete_Inv hok hinv

theorem step_Inv {s : St} (op : Op) (hinv : Inv s) : Inv (step s op) := by
  unfold step
  cases h : apply s op with
  | ok s1 => exact apply_Inv h hinv
  | error e => exact hinv

theorem run_Inv {s : St} (ops : List Op) (hinv : Inv s) : Inv (run s ops) := by
  induction ops generalizing s with
  | nil => exact hinv
  | cons op ops ih => exact ih (step_Inv op hinv)

theorem init_Inv (items : List Item) (templates : List SizeTemplate)
    (rng : List String) : Inv (init items templates rng) := by
  refine ⟨⟨⟨by simp [init], by simp [init]⟩, by simp [init, CodesOk],
          by simp [init, KeysOk]⟩, ?_⟩
  intro i z
  unfold GTat countUnits countUnowned unitsOf invVals findRow init
  simp

theorem run_init_Inv (items : List Item) (templates : List SizeTemplate)
    (rng : List String) (ops : List Op) :
    Inv (run (init items templates rng) ops) :=
  run_Inv ops (init_Inv items templates rng)

/-! ## Theorems: idempotence analysis of `sync_reconcile` -/

theorem sync_reconcile_Inv {s s' : St} {it : Item}
    (hok : sync_reconcile s it = .ok s') (hinv : Inv s) : Inv s' := by
  obtain ⟨⟨hids, hcodes, hkeys⟩, hGT⟩ := hinv
  set s2 := sync_inventory_from_collection s it with hs2
  have h2units : s2.units = s.units := sync_from_units s it
  have h2tpl : s2.templates = s.templates := sync_from_templates s it
  have h2next : s2.nextUnitId = s.nextUnitId := sync_from_nextUnitId s it
  have htplEq : templatesFor s2 it.collectionId = templatesFor s it.collectionId :=
    templatesFor_congr h2tpl it.collectionId
  have hWf2 : Wf s2 := ⟨IdsOk_congr h2units h2next hids,
    CodesOk_congr h2units hcodes, sync_from_KeysOk hkeys it⟩
  have hens : ensure_units_from_templates s2 it = .ok s' := hok
  obtain ⟨hwf', hitems', htpl', hGTtpl, _, hnonTpl, hoffItem⟩ := ensure_from_ok hens hWf2
  refine ⟨hwf', ?_⟩
  intro i z
  by_cases hi : i = it.id
  · subst hi
    by_cases hz : z ∈ (templatesFor s2 it.collectionId).map (·.size)
    · exact hGTtpl z hz
    · obtain ⟨hcaseEmpty, hcaseNon, _⟩ := hnonTpl z hz
      by_cases hu0 : unitsOf s2 it.id z = []
      · obtain ⟨hueq, hveq⟩ := hcaseEmpty hu0
        have hz1 : z ∉ (templatesFor s it.collectionId).map (·.size) := by
          rw [← htplEq]
          exact hz
        have hvnone : invVals s2 it.id z = none := by
          have hfr : findRow s2 it.id z = none := sync_from_findRow_nonTpl hz1
          simp [invVals, hfr]
        unfold GTat
        have hcnt : countUnits s' it.id z = 0 := by
          unfold countUnits
          rw [hueq, hu0]
          rfl
        rw [hcnt, if_pos rfl, hveq, hvnone]
      · exact hcaseNon hu0
  · obtain ⟨hueq, hveq⟩ := hoffItem i z hi
    have hu2 : unitsOf s2 i z = unitsOf s i z := unitsOf_congr h2units i z
    have hfr2 : findRow s2 i z = findRow s i z := sync_from_findRow_otherItem hi
    have hv2 : invVals s2 i z = invVals s i z := by
      simp [invVals, hfr2]
    exact GTat_congr (hueq.trans hu2) (hveq.trans hv2) (hGT i z)

theorem sync_reconcile_settles {s s₁ : St} {it : Item}
    (hok : sync_reconcile s it = .ok s₁) (hwf : Wf s) :
    s₁.templates = s.templates ∧
    (∀ t ∈ templatesFor s it.collectionId,
        t.quantity ≤ countUnits s₁ it.id t.size ∧
        (t.quantity < countUnits s₁ it.id t.size →
          countUnowned s₁ it.id t.size = 0)) ∧
    (∀ z, z ∉ (templatesFor s it.collectionId).map (·.size) →
        countUnowned s₁ it.id z = 0) := by
  obtain ⟨hids, hcodes, hkeys⟩ := hwf
  set s2 := sync_inventory_from_collection s it with hs2
  have h2units : s2.units = s.units := sync_from_units s it
  have h2tpl : s2.templates = s.templates := sync_from_templates s it
  have h2next : s2.nextUnitId = s.nextUnitId := sync_from_nextUnitId s it
  have htplEq : templatesFor s2 it.collectionId = templatesFor s it.collectionId :=
    templatesFor_congr h2tpl it.collectionId
  have hWf2 : Wf s2 := ⟨IdsOk_congr h2units h2next hids,
    CodesOk_congr h2units hcodes, sync_from_KeysOk hkeys it⟩
  have hens : ensure_units_from_templates s2 it = .ok s₁ := hok
  obtain ⟨_, _, htpl', _, htcounts, hnonTpl, _⟩ := ensure_from_ok hens hWf2
  refine ⟨htpl'.trans h2tpl, ?_, ?_⟩
  · intro t ht
    have h4 := htcounts t (by rw [htplEq]; exact ht)
    exact ⟨h4.1, h4.2.1⟩
  · intro z hz
    refine (hnonTpl z ?_).2.2
    rw [htplEq]
    exact hz

theorem ensure_fold_settled (tpls : List SizeTemplate) (s : St) (i : Nat)
    (hset : ∀ t ∈ tpls, t.quantity ≤ countUnits s i t.size ∧
        (t.quantity < countUnits s i t.size → countUnowned s i t.size = 0)) :
    ∃ sF, List.foldlM (fun acc t => ensure_units_one acc i t.size t.quantity) s tpls
        = .ok sF ∧
      sF.units = s.units ∧ sF.items = s.items ∧ sF.templates = s.templates ∧
      sF.nextUnitId = s.nextUnitId ∧ sF.rng = s.rng := by
  induction tpls generalizing s with
  | nil => exact ⟨s, rfl, rfl, rfl, rfl, rfl, rfl⟩
  | cons t ts ih =>
    obtain ⟨h1, h2⟩ := hset t (List.mem_cons_self t ts)
    have hone := ensure_one_settled h1 h2
    have hRunits : (refresh_inventory_for_size s i t.size).units = s.units :=
      refresh_units s i t.size
    have hset2 : ∀ t' ∈ ts, t'.quantity ≤
        countUnits (refresh_inventory_for_size s i t.size) i t'.size ∧
        (t'.quantity < countUnits (refresh_inventory_for_size s i t.size) i t'.size →
          countUnowned (refresh_inventory_for_size s i t.size) i t'.size = 0) := by
      intro t' ht'
      rw [countUnits_congr hRunits, countUnowned_congr hRunits]
      exact hset t' (List.mem_cons_of_mem t ht')
    obtain ⟨sF, hfold, hu, hii, htt, hn, hr⟩ := ih _ hset2
    refine ⟨sF, ?_, hu.trans hRunits,
            hii.trans (refresh_items s i t.size),
            htt.trans (refresh_templates s i t.size),
            hn.trans (refresh_nextUnitId s i t.size),
            hr.trans (refresh_rng s i t.size)⟩
    rw [List.foldlM_cons, hone]
    simpa [bind, Except.bind] using hfold

theorem extra_fold_settled (zs : List Size) :
    ∀ (s : St) (i : Nat), (∀ z ∈ zs, countUnowned s i z = 0) →
    (zs.foldl (fun acc z => delete_extra_size acc i z) s).units = s.units ∧
    (zs.foldl (fun acc z => delete_extra_size acc i z) s).items = s.items ∧
    (zs.foldl (fun acc z => delete_extra_size acc i z) s).templates = s.templates ∧
    (zs.foldl (fun acc z => delete_extra_size acc i z) s).nextUnitId = s.nextUnitId ∧
    (zs.foldl (fun acc z => delete_extra_size acc i z) s).rng = s.rng := by
  induction zs with
  | nil =>
    intro s i _
    exact ⟨rfl, rfl, rfl, rfl, rfl⟩
  | cons z zs ih =>
    intro s i hset
    rw [List.foldl_cons, delete_extra_settled (hset z (List.mem_cons_self z zs))]
    have hRunits : (refresh_inventory_for_size s i z).units = s.units :=
      refresh_units s i z
    obtain ⟨hu, hii, htt, hn, hr⟩ := ih (refresh_inventory_for_size s i z) i
      (fun z' hz' => by
        rw [countUnowned_congr hRunits]
        exact hset z' (List.mem_cons_of_mem z hz'))
    exact ⟨hu.trans hRunits, hii.trans (refresh_items s i z),
           htt.trans (refresh_templates s i z),
           hn.trans (refresh_nextUnitId s i z),
           hr.trans (refresh_rng s i z)⟩

theorem invVals_eq_of_GT {s s' : St} {i : Nat} {z : Size}
    (hu : s'.units = s.units) (h1 : GTat s i z) (h2 : GTat s' i z) :
    invVals s' i z = invVals s i z := by
  unfold GTat at h1 h2
  rw [countUnits_congr hu, countUnowned_congr hu] at h2
  rw [h1, h2]

theorem sync_reconcile_second {s₁ : St} {it : Item} (hinv : Inv s₁)
    (hS1 : ∀ t ∈ templatesFor s₁ it.collectionId,
        t.quantity ≤ countUnits s₁ it.id t.size ∧
        (t.quantity < countUnits s₁ it.id t.size →
          countUnowned s₁ it.id t.size = 0))
    (hS4 : ∀ z, z ∉ (templatesFor s₁ it.collectionId).map (·.size) →
        countUnowned s₁ it.id z = 0) :
    ∃ s₂, sync_reconcile s₁ it = .ok s₂ ∧
      s₂.units = s₁.units ∧ s₂.items = s₁.items ∧ s₂.templates = s₁.templates ∧
      s₂.nextUnitId = s₁.nextUnitId ∧ s₂.rng = s₁.rng ∧
      ∀ i z, invVals s₂ i z = invVals s₁ i z := by
  set s2 := sync_inventory_from_collection s₁ it with hs2def
  have h2units : s2.units = s₁.units := sync_from_units s₁ it
  have h2items : s2.items = s₁.items := sync_from_items s₁ it
  have h2tpl : s2.templates = s₁.templates := sync_from_templates s₁ it
  have h2next : s2.nextUnitId = s₁.nextUnitId := sync_from_nextUnitId s₁ it
  have h2rng : s2.rng = s₁.rng := sync_from_rng s₁ it
  have htplEq : templatesFor s2 it.collectionId = templatesFor s₁ it.collectionId :=
    templatesFor_congr h2tpl it.collectionId
  have hsetF : ∀ t ∈ templatesFor s2 it.collectionId,
      t.quantity ≤ countUnits s2 it.id t.size ∧
      (t.quantity < countUnits s2 it.id t.size →
        countUnowned s2 it.id t.size = 0) := by
    intro t ht
    rw [countUnits_congr h2units, countUnowned_congr h2units]
    refine hS1 t ?_
    rw [← htplEq]
    exact ht
  obtain ⟨sF, hfold, hFu, hFi, hFt, hFn, hFr⟩ :=
    ensure_fold_settled (templatesFor s2 it.collectionId) s2 it.id hsetF
  have hsFunits : sF.units = s₁.units := hFu.trans h2units
  set E := sizeOrder.filter
    (fun z => decide (z ∉ (templatesFor s2 it.collectionId).map (·.size)) &&
      !(unitsOf sF it.id z).isEmpty) with hEdef
  have hsetE : ∀ z ∈ E, countUnowned sF it.id z = 0 := by
    intro z hz
    have hm := mem_extra_iff.mp hz
    rw [countUnowned_congr hsFunits]
    refine hS4 z ?_
    rw [← htplEq]
    exact hm.1
  obtain ⟨hEu, hEi, hEt, hEn, hEr⟩ := extra_fold_settled E sF it.id hsetE
  refine ⟨E.foldl (fun acc z => delete_extra_size acc it.id z) sF, ?_,
          hEu.trans hsFunits, (hEi.trans hFi).trans h2items,
          (hEt.trans hFt).trans h2tpl, (hEn.trans hFn).trans h2next,
          (hEr.trans hFr).trans h2rng, ?_⟩
  · show ensure_units_from_templates s2 it = _
    simp only [ensure_units_from_templates, bind, Except.bind]
    rw [hfold]
  · intro i z
    have hok2 : sync_reconcile s₁ it
        = .ok (E.foldl (fun acc z => delete_extra_size acc it.id z) sF) := by
      show ensure_units_from_templates s2 it = _
      simp only [ensure_units_from_templates, bind, Except.bind]
      rw [hfold]
    have hinv2 := sync_reconcile_Inv hok2 hinv
    exact invVals_eq_of_GT (hEu.trans hsFunits) (hinv.2 i z) (hinv2.2 i z)

/-! ## Shared lemmas for the claims -/

theorem findRow_of_mem {s : St} (hkeys : KeysOk s) {r : InvRow}
    (hr : r ∈ s.inventories) : findRow s r.itemId r.size = some r := by
  unfold findRow
  cases hf : s.inventories.find? (keyR r.itemId r.size) with
  | none =>
    exact absurd (show keyR r.itemId r.size r = true by simp [keyR])
      (List.find?_eq_none.mp hf r hr)
  | some r' =>
    have hmem := List.mem_of_find?_eq_some hf
    have hp := List.find?_some hf
    rw [keyR_eq_true] at hp
    have hkey : (fun r0 : InvRow => (r0.itemId, r0.size)) r' =
        (fun r0 : InvRow => (r0.itemId, r0.size)) r := by
      simp [hp.1, hp.2]
    rw [List.inj_on_of_nodup_map hkeys hmem hr hkey]

theorem Inv_templates_update {s : St} (tpl : List SizeTemplate) (h : Inv s) :
    Inv { s with templates := tpl } := by
  obtain ⟨⟨hids, hcodes, hkeys⟩, hGT⟩ := h
  exact ⟨⟨hids, hcodes, hkeys⟩, hGT⟩

/-! ## The claims -/

/-- C1: after any sequence of unit creations, deletions and owner
(re)assignments performed through the public operations (item save, unit
save, unit delete) from an initial store, every (item, size) pair with at
least one unit has a Size Inventory row whose `quantity_remaining` equals
the number of that item's unowned units of that size and whose
`quantity_initial` equals the total number of that item's units of that
size. -/
theorem claim_C1 (items : List Item) (templates : List SizeTemplate)
    (rng : List String) (ops : List Op) (i : Nat) (z : Size)
    (h : countUnits (run (init items templates rng) ops) i z ≠ 0) :
    ∃ r, findRow (run (init items templates rng) ops) i z = some r ∧
      r.quantity_remaining = countUnowned (run (init items templates rng) ops) i z ∧
      r.quantity_initial = countUnits (run (init items templates rng) ops) i z := by
  have hGT := (run_init_Inv items templates rng ops).2 i z
  unfold GTat at hGT
  rw [if_neg h] at hGT
  unfold invVals at hGT
  cases hr : findRow (run (init items templates rng) ops) i z with
  | none =>
    rw [hr] at hGT
    exact absurd hGT (by simp)
  | some r =>
    rw [hr] at hGT
    simp only [Option.map_some', Option.some.injEq, Prod.mk.injEq] at hGT
    exact ⟨r, rfl, hGT.2, hGT.1⟩

theorem claim_C1_witness :
    countUnits cBase 1 Size.M ≠ 0 ∧
    ∃ r, findRow cBase 1 Size.M = some r ∧
      r.quantity_remaining = countUnowned cBase 1 Size.M ∧
      r.quantity_initial = countUnits cBase 1 Size.M :=
  ⟨by decide,
   claim_C1 [⟨1, 1⟩] [⟨1, Size.M, 2⟩] ["A", "B"] [.itemSave ⟨1, 1⟩] 1 Size.M
     (by decide)⟩

/-- C4: in every reachable store, every Size Inventory row satisfies
`quantity_remaining ≤ quantity_initial`, and after each public operation a
row for (item, size) exists iff at least one unit of that size exists for
the item. -/
theorem claim_C4 (items : List Item) (templates : List SizeTemplate)
    (rng : List String) (ops : List Op) :
    (∀ r ∈ (run (init items templates rng) ops).inventories,
       r.quantity_remaining ≤ r.quantity_initial) ∧
    (∀ i z, (findRow (run (init items templates rng) ops) i z).isSome ↔
       countUnits (run (init items templates rng) ops) i z ≠ 0) := by
  obtain ⟨⟨_, _, hkeys⟩, hGT⟩ := run_init_Inv items templates rng ops
  constructor
  · intro r hr
    have hfind := findRow_of_mem hkeys hr
    have hg := hGT r.itemId r.size
    unfold GTat invVals at hg
    rw [hfind] at hg
    by_cases h0 : countUnits (run (init items templates rng) ops) r.itemId r.size = 0
    · rw [if_pos h0] at hg
      exact absurd hg (by simp)
    · rw [if_neg h0] at hg
      simp only [Option.map_some', Option.some.injEq, Prod.mk.injEq] at hg
      rw [hg.1, hg.2]
      unfold countUnits countUnowned
      exact List.length_filter_le _ _
  · intro i z
    have hg := hGT i z
    unfold GTat invVals at hg
    constructor
    · intro hs
      intro h0
      rw [if_pos h0] at hg
      rw [Option.map_eq_none'] at hg
      rw [hg] at hs
      exact absurd hs (by simp)
    · intro h0
      rw [if_neg h0] at hg
      cases hr : findRow (run (init items templates rng) ops) i z with
      | none =>
        rw [hr] at hg
        exact absurd hg (by simp)
      | some r => rfl

theorem claim_C4_witness :
    ((⟨1, Size.M, 2, 2⟩ : InvRow) ∈ cBase.inventories ∧ (2 : Nat) ≤ 2) ∧
    ((findRow cBase 1 Size.M).isSome ↔ countUnits cBase 1 Size.M ≠ 0) :=
  ⟨⟨by decide,
    (claim_C4 [⟨1, 1⟩] [⟨1, Size.M, 2⟩] ["A", "B"] [.itemSave ⟨1, 1⟩]).1
      ⟨1, Size.M, 2, 2⟩ (by decide)⟩,
   (claim_C4 [⟨1, 1⟩] [⟨1, Size.M, 2⟩] ["A", "B"] [.itemSave ⟨1, 1⟩]).2 1 Size.M⟩

/-- C6: saving an apparel item whose collection defines no size templates
fails with the configuration error before persistence, and the request
leaves the store untouched: no item row, no units and no inventory rows are
created. -/
theorem claim_C6 {s : St} {it : Item}
    (h : ∀ t ∈ s.templates, t.collectionId ≠ it.collectionId) :
    item_save s it = .error .configurationError ∧ step s (.itemSave it) = s := by
  have htf : templatesFor s it.collectionId = [] := by
    unfold templatesFor
    rw [List.filterMap_eq_nil_iff]
    intro z _
    rw [List.find?_eq_none]
    intro t ht hp
    simp only [decide_eq_true_eq] at hp
    exact h t ht hp.1
  have hsave : item_save s it = .error .configurationError := by
    unfold item_save
    rw [htf]
    rfl
  refine ⟨hsave, ?_⟩
  unfold step
  have happ : apply s (Op.itemSave it) = .error .configurationError := hsave
  rw [happ]

theorem claim_C6_witness :
    (∀ t ∈ (init [⟨1, 1⟩] [] ["A"]).templates,
       t.collectionId ≠ (⟨1, 1⟩ : Item).collectionId) ∧
    item_save (init [⟨1, 1⟩] [] ["A"]) ⟨1, 1⟩ = .error .configurationError ∧
    step (init [⟨1, 1⟩] [] ["A"]) (.itemSave ⟨1, 1⟩) = init [⟨1, 1⟩] [] ["A"] :=
  ⟨by decide, claim_C6 (by decide)⟩

/-- C10: for a collection whose template maps some size to quantity 0,
saving an item that has no units of that size produces no units of that
size and, once the save completes, no Size Inventory row for that size
(the 0/0 row created by the template sync pass is removed by the
ground-truth recompute). -/
theorem claim_C10 {s s' : St} {it : Item} {z : Size}
    (hinv : Inv s)
    (htpl : ∃ t ∈ templatesFor s it.collectionId, t.size = z ∧ t.quantity = 0)
    (hu0 : countUnits s it.id z = 0)
    (hok : item_save s it = .ok s') :
    countUnits s' it.id z = 0 ∧ findRow s' it.id z = none := by
  obtain ⟨t, ht, htz, htq⟩ := htpl
  obtain ⟨_, hens⟩ := item_save_ok_elim hok
  set s1 := item_row_save s it with hs1
  set s2 := sync_inventory_from_collection s1 it with hs2
  have h1units : s1.units = s.units := item_row_save_units s it
  have h2units : s2.units = s.units := (sync_from_units s1 it).trans h1units
  have h1tpl : s1.templates = s.templates := item_row_save_templates s it
  have h2tpl : s2.templates = s.templates := (sync_from_templates s1 it).trans h1tpl
  have h2next : s2.nextUnitId = s.nextUnitId :=
    (sync_from_nextUnitId s1 it).trans (item_row_save_nextUnitId s it)
  have htplEq : templatesFor s2 it.collectionId = templatesFor s it.collectionId :=
    templatesFor_congr h2tpl it.collectionId
  have hWf2 : Wf s2 :=
    ⟨IdsOk_congr h2units h2next hinv.1.1,
     CodesOk_congr h2units hinv.1.2.1,
     sync_from_KeysOk (KeysOk_congr (item_row_save_inventories s it) hinv.1.2.2) it⟩
  obtain ⟨_, _, _, _, htcounts, _, _⟩ := ensure_from_ok hens hWf2
  have ht2 : t ∈ templatesFor s2 it.collectionId := by
    rw [htplEq]
    exact ht
  obtain ⟨_, _, hmax⟩ := htcounts t ht2
  have hc2 : countUnits s2 it.id t.size = 0 := by
    rw [countUnits_congr h2units, htz]
    exact hu0
  have hc' : countUnits s' it.id z = 0 := by
    rw [← htz]
    omega
  refine ⟨hc', ?_⟩
  have hGT := (item_save_Inv hok hinv).2 it.id z
  unfold GTat invVals at hGT
  rw [hc', if_pos rfl, Option.map_eq_none'] at hGT
  exact hGT

theorem claim_C10_witness :
    (∃ t ∈ templatesFor cC10 1, t.size = Size.M ∧ t.quantity = 0) ∧
    countUnits cC10 1 Size.M = 0 ∧
    item_save cC10 ⟨1, 1⟩ = .ok cC10res ∧
    countUnits cC10res 1 Size.M = 0 ∧ findRow cC10res 1 Size.M = none :=
  ⟨by decide, by decide, by decide,
   @claim_C10 cC10 cC10res ⟨1, 1⟩ Size.M
     (init_Inv [⟨1, 1⟩] [⟨1, Size.M, 0⟩, ⟨1, Size.L, 1⟩] ["A"])
     (by decide) (by decide) (by decide)⟩

/-- C2: when an item's existing unit count of a size exceeds the template
quantity, reconciliation deletes up to (existing − target) unowned units of
that size, most recently created (largest pk) first; it never deletes an
owned unit, and when fewer unowned units exist than the required removal
count the resulting count stays above the target. -/
theorem claim_C2 {s : St} {i : Nat} {z : Size} {q : Nat}
    (hwf : Wf s) (hgt : q < countUnits s i z) :
    ∃ s', ensure_units_one s i z q = .ok s' ∧
      countUnits s' i z =
        countUnits s i z - min (countUnits s i z - q) (countUnowned s i z) ∧
      (∀ u ∈ s.units, u.owner ≠ none → u ∈ s'.units) ∧
      (∀ u ∈ s.units, u ∉ s'.units →
        u.owner = none ∧ u.itemId = i ∧ u.size = z ∧
        ∀ v ∈ unitsOf s' i z, v.owner = none → v.id < u.id) ∧
      (countUnowned s i z < countUnits s i z - q → q < countUnits s' i z) := by
  have hids := hwf.1.1
  refine ⟨_, ensure_one_of_gt hgt, ?_, ?_, ?_, ?_⟩
  · rw [countUnits_congr (refresh_units
        (deleteState s (removableIdsOf s i z (countUnits s i z - q))) i z),
      deleteState_countUnits hids i z (countUnits s i z - q),
      removableIdsOf_length i z (countUnits s i z - q)]
  · intro u hu how
    rw [refresh_units]
    exact deleteState_owned_kept hids i z (countUnits s i z - q) hu how
  · intro u hu hnot
    rw [refresh_units] at hnot
    obtain ⟨h1, h2, h3⟩ := removed_unowned_at_key hids hu hnot
    refine ⟨h1, h2, h3, ?_⟩
    intro v hv hvun
    rw [unitsOf_congr (refresh_units
        (deleteState s (removableIdsOf s i z (countUnits s i z - q))) i z)] at hv
    exact deleteState_most_recent hids hu hnot hv hvun
  · intro hlt
    rw [countUnits_congr (refresh_units
        (deleteState s (removableIdsOf s i z (countUnits s i z - q))) i z),
      deleteState_countUnits hids i z (countUnits s i z - q),
      removableIdsOf_length i z (countUnits s i z - q)]
    omega

theorem claim_C2_witness :
    1 < countUnits cThree 1 Size.M ∧
    ∃ s', ensure_units_one cThree 1 Size.M 1 = .ok s' ∧
      countUnits s' 1 Size.M =
        countUnits cThree 1 Size.M -
          min (countUnits cThree 1 Size.M - 1) (countUnowned cThree 1 Size.M) ∧
      (∀ u ∈ cThree.units, u.owner ≠ none → u ∈ s'.units) ∧
      (∀ u ∈ cThree.units, u ∉ s'.units →
        u.owner = none ∧ u.itemId = 1 ∧ u.size = Size.M ∧
        ∀ v ∈ unitsOf s' 1 Size.M, v.owner = none → v.id < u.id) ∧
      (countUnowned cThree 1 Size.M < countUnits cThree 1 Size.M - 1 →
        1 < countUnits s' 1 Size.M) :=
  ⟨by decide,
   claim_C2 (run_init_Inv [⟨1, 1⟩] [⟨1, Size.M, 3⟩] ["A", "B", "C"]
     [.itemSave ⟨1, 1⟩, .unitSave 0 (some 7) Size.M 10]).1 (by decide)⟩

/-- C3 as stated is false on the code: in the scenario with 80 size-M units
of which 5 are owned and the size-M template reduced to 70, reconciliation
deletes `existing − target = 10` units, not 75, so the resulting size-M
count is 70, not 5, and the stored pair is not `(5, 0)`. -/
theorem claim_C3_counterexample :
    ensure_units_from_templates cC3 ⟨1, 1⟩ = .ok cC3res ∧
    ¬(countUnits cC3res 1 Size.M = 5 ∧
      invVals cC3res 1 Size.M = some (5, 0)) := by
  exact ⟨by decide, by decide⟩

/-- C3 (amended): in that scenario reconciliation deletes 10 unowned size-M
units (`existing − target`), the resulting size-M count is 70,
`quantity_initial` becomes 70 and `quantity_remaining` 65, and no owned
unit is deleted. -/
theorem claim_C3 :
    ensure_units_from_templates cC3 ⟨1, 1⟩ = .ok cC3res ∧
    cC3res.units.length = 70 ∧
    countUnits cC3res 1 Size.M = 70 ∧
    countUnowned cC3res 1 Size.M = 65 ∧
    invVals cC3res 1 Size.M = some (70, 65) ∧
    (∀ u ∈ cC3.units, u.owner ≠ none → u ∈ cC3res.units) := by
  decide

/-- C5 as stated is false on the code: on `cC5` (two owned size-M units,
template quantity lowered to 1) the second sync/reconcile run performs two
further writes — the template sync pass rewrites `quantity_initial` to the
template value and the ground-truth recompute writes it back — even though
every unit and every inventory row ends identical. -/
theorem claim_C5_counterexample :
    sync_reconcile cC5 ⟨1, 1⟩ = .ok cC5r1 ∧
    sync_reconcile cC5r1 ⟨1, 1⟩ = .ok cC5r2 ∧
    cC5r2.units = cC5r1.units ∧
    cC5r2.inventories = cC5r1.inventories ∧
    ¬(cC5r2.writes = cC5r1.writes) := by
  exact ⟨by decide, by decide, by decide, by decide, by decide⟩

/-- C5 (amended): running sync/reconcile twice in a row on the same item
with no intervening state change leaves every unit, every Size Inventory
value, the item and template rows, the pk counter and the random stream
identical to the first run's result; the second run may however perform
writes (it is observationally, not write-count, idempotent). -/
theorem claim_C5 {s s₁ : St} {it : Item} (hinv : Inv s)
    (h1 : sync_reconcile s it = .ok s₁) :
    ∃ s₂, sync_reconcile s₁ it = .ok s₂ ∧
      s₂.units = s₁.units ∧ s₂.items = s₁.items ∧ s₂.templates = s₁.templates ∧
      s₂.nextUnitId = s₁.nextUnitId ∧ s₂.rng = s₁.rng ∧
      ∀ i z, invVals s₂ i z = invVals s₁ i z := by
  have hinv1 := sync_reconcile_Inv h1 hinv
  obtain ⟨htpl, hS1, hS4⟩ := sync_reconcile_settles h1 hinv.1
  have htplEq : templatesFor s₁ it.collectionId = templatesFor s it.collectionId :=
    templatesFor_congr htpl it.collectionId
  refine sync_reconcile_second hinv1 ?_ ?_
  · intro t ht
    refine hS1 t ?_
    rw [← htplEq]
    exact ht
  · intro z hz
    refine hS4 z ?_
    rw [htplEq] at hz
    exact hz

theorem claim_C5_witness :
    sync_reconcile cC5 ⟨1, 1⟩ = .ok cC5r1 ∧
    ∃ s₂, sync_reconcile cC5r1 ⟨1, 1⟩ = .ok s₂ ∧
      s₂.units = cC5r1.units ∧ s₂.items = cC5r1.items ∧
      s₂.templates = cC5r1.templates ∧ s₂.nextUnitId = cC5r1.nextUnitId ∧
      s₂.rng = cC5r1.rng ∧ ∀ i z, invVals s₂ i z = invVals cC5r1 i z :=
  ⟨by decide,
   claim_C5 (Inv_templates_update [⟨1, Size.M, 1⟩]
     (run_init_Inv [⟨1, 1⟩] [⟨1, Size.M, 2⟩] ["A", "B"]
       [.itemSave ⟨1, 1⟩, .unitSave 0 (some 7) Size.M 10,
        .unitSave 1 (some 8) Size.M 11])) (by decide)⟩

/-- C7 as stated is false on the code: nothing regenerates or retries a
colliding access code. In `cC7` the next random output equals the code the
first item's unit already holds, and saving the second item surfaces the
uniqueness conflict to the caller as a failed write. -/
theorem claim_C7_counterexample :
    item_save cC7 ⟨2, 1⟩ = .error .uniquenessConflict := by
  decide

/-- C7 (amended): the storage layer does not retry a colliding code; when
the next generated code equals a live unit's access code, the unit INSERT
fails with the uniqueness conflict and the error reaches the caller. -/
theorem claim_C7 {s : St} {i : Nat} {z : Size}
    (h : ∃ u ∈ s.units, u.accessCode = s.rng.headD "") :
    unit_insert s i z = .error .uniquenessConflict := by
  obtain ⟨u, hu, hc⟩ := h
  have hcond : (s.units.any fun u0 => decide (u0.accessCode = s.rng.headD "")) = true :=
    List.any_eq_true.mpr ⟨u, hu, by simp [hc]⟩
  simp only [unit_insert]
  rw [if_pos hcond]

theorem claim_C7_witness :
    (∃ u ∈ cC7.units, u.accessCode = cC7.rng.headD "") ∧
    unit_insert cC7 2 Size.M = .error .uniquenessConflict :=
  ⟨by decide, claim_C7 (by decide)⟩

/-- C9's no-reuse clause is false on the code: unit 0 holds code "A", is
deleted, and the replacement unit created by the next item save draws the
same code "A" — a deleted unit's code is reassigned to a later unit, since
uniqueness is enforced only among live rows. -/
theorem claim_C9_counterexample :
    cC9mid.units = [⟨0, 1, Size.M, "A", none, none⟩] ∧
    cC9end.units = [⟨1, 1, Size.M, "A", none, none⟩] := by
  exact ⟨by decide, by decide⟩

/-- C9 (amended): in every reachable store a live unit's access code
resolves via lookup to exactly that unit and to no other live unit, and
lookup of a code held by no live unit returns the not-found signal; a
deleted unit's code may however later be reassigned (see the
counterexample), since uniqueness holds only among live rows. -/
theorem claim_C9 (items : List Item) (templates : List SizeTemplate)
    (rng : List String) (ops : List Op) (u : ApparelUnit) (c : String)
    (hu : u ∈ (run (init items templates rng) ops).units) :
    lookup (run (init items templates rng) ops) u.accessCode = some u ∧
    (∀ v ∈ (run (init items templates rng) ops).units,
       v.accessCode = u.accessCode → v = u) ∧
    ((∀ v ∈ (run (init items templates rng) ops).units, v.accessCode ≠ c) →
      lookup (run (init items templates rng) ops) c = none) := by
  obtain ⟨⟨_, hcodes, _⟩, _⟩ := run_init_Inv items templates rng ops
  have huniq : ∀ v ∈ (run (init items templates rng) ops).units,
      v.accessCode = u.accessCode → v = u :=
    fun v hv he => List.inj_on_of_nodup_map hcodes hv hu he
  refine ⟨?_, huniq, ?_⟩
  · unfold lookup
    cases hf : (run (init items templates rng) ops).units.find?
        (fun v => decide (v.accessCode = u.accessCode)) with
    | none =>
      exact absurd (show decide (u.accessCode = u.accessCode) = true by simp)
        (List.find?_eq_none.mp hf u hu)
    | some v =>
      have hp := List.find?_some hf
      simp only [decide_eq_true_eq] at hp
      rw [huniq v (List.mem_of_find?_eq_some hf) hp]
  · intro hnone
    unfold lookup
    rw [List.find?_eq_none]
    intro v hv
    simp only [decide_eq_true_eq]
    exact hnone v hv

theorem claim_C9_witness :
    (⟨0, 1, Size.M, "A", none, none⟩ : ApparelUnit) ∈ cBase.units ∧
    (lookup cBase (⟨0, 1, Size.M, "A", none, none⟩ : ApparelUnit).accessCode =
        some ⟨0, 1, Size.M, "A", none, none⟩ ∧
      (∀ v ∈ cBase.units,
        v.accessCode = (⟨0, 1, Size.M, "A", none, none⟩ : ApparelUnit).accessCode →
        v = ⟨0, 1, Size.M, "A", none, none⟩) ∧
      ((∀ v ∈ cBase.units, v.accessCode ≠ "Z") → lookup cBase "Z" = none)) :=
  ⟨by decide,
   claim_C9 [⟨1, 1⟩] [⟨1, Size.M, 2⟩] ["A", "B"] [.itemSave ⟨1, 1⟩]
     ⟨0, 1, Size.M, "A", none, none⟩ "Z" (by decide)⟩

/-- C8: assigning an owner to a previously-unowned unit stamps its
assignment timestamp with the current instant and decrements that size's
`quantity_remaining` by exactly 1; removing the owner clears the timestamp
and increments `quantity_remaining` by exactly 1. -/
theorem claim_C8 {s : St} {uid w now : Nat} {u : ApparelUnit}
    (hinv : Inv s) (hf : s.units.find? (byId uid) = some u) :
    (u.owner = none →
      ∀ sA, unit_save s uid (some w) u.size now = .ok sA →
        (∃ u2, sA.units.find? (byId uid) = some u2 ∧
           u2.assignedAt = some now ∧ u2.owner = some w) ∧
        ∀ ti ri, invVals s u.itemId u.size = some (ti, ri) →
          1 ≤ ri ∧ invVals sA u.itemId u.size = some (ti, ri - 1)) ∧
    (∀ w0, u.owner = some w0 →
      ∀ sU, unit_save s uid none u.size now = .ok sU →
        (∃ u2, sU.units.find? (byId uid) = some u2 ∧
           u2.assignedAt = none ∧ u2.owner = none) ∧
        ∀ ti ri, invVals s u.itemId u.size = some (ti, ri) →
          invVals sU u.itemId u.size = some (ti, ri + 1)) := by
  have hnd := hinv.1.1.1
  have humem : u ∈ s.units := List.mem_of_find?_eq_some hf
  have hukey : u ∈ unitsOf s u.itemId u.size :=
    List.mem_filter.mpr ⟨humem, by simp⟩
  have hcount0 : countUnits s u.itemId u.size ≠ 0 := by
    unfold countUnits
    intro h0
    rw [List.length_eq_zero] at h0
    rw [h0] at hukey
    exact List.not_mem_nil u hukey
  have hvgt : invVals s u.itemId u.size =
      some (countUnits s u.itemId u.size, countUnowned s u.itemId u.size) := by
    have hGTs := hinv.2 u.itemId u.size
    unfold GTat at hGTs
    rw [if_neg hcount0] at hGTs
    exact hGTs
  constructor
  · intro hown sA hok
    obtain ⟨hunits, _, _, _, _, hGTnz, _, _, _⟩ := unit_save_master hf hnd hok
    have haa : assignedAtAfter u (some w) now = some now := by
      simp [assignedAtAfter, hown]
    constructor
    · refine ⟨{ u with size := u.size, owner := some w, assignedAt := assignedAtAfter u (some w) now }, ?_, ?_, ?_⟩
      · rw [hunits]
        exact find?_byId_applyAt hnd hf rfl
      · exact haa
      · rfl
    · intro ti ri hvals
      rw [hvgt] at hvals
      injection hvals with hpair
      have hti : countUnits s u.itemId u.size = ti := congrArg Prod.fst hpair
      have hri : countUnowned s u.itemId u.size = ri := congrArg Prod.snd hpair
      have hri1 : 0 < countUnowned s u.itemId u.size :=
        List.length_pos_of_mem
          (List.mem_filter.mpr ⟨hukey, by simp [hown]⟩)
      have hlenU := length_filter_applyAt
        (fun u0 => { u0 with size := u.size, owner := some w, assignedAt := assignedAtAfter u (some w) now })
        hnd hf (keyU u.itemId u.size)
      simp [keyU] at hlenU
      have hlenO := length_filter_applyAt
        (fun u0 => { u0 with size := u.size, owner := some w, assignedAt := assignedAtAfter u (some w) now })
        hnd hf (fun u0 => unowned u0 && keyU u.itemId u.size u0)
      have hpu : (unowned u && keyU u.itemId u.size u) = true := by
        simp [unowned, keyU, hown]
      have hpf : (unowned { u with size := u.size, owner := some w, assignedAt := assignedAtAfter u (some w) now } && keyU u.itemId u.size { u with size := u.size, owner := some w, assignedAt := assignedAtAfter u (some w) now }) = false := by
        simp [unowned]
      simp [hpu, hpf] at hlenO
      have hcntA : countUnits sA u.itemId u.size = countUnits s u.itemId u.size := by
        unfold countUnits unitsOf
        rw [hunits]
        omega
      have hcntO : countUnowned sA u.itemId u.size + 1 =
          countUnowned s u.itemId u.size := by
        unfold countUnowned unitsOf
        rw [hunits, List.filter_filter, List.filter_filter]
        omega
      have hc0A : countUnits sA u.itemId u.size ≠ 0 := by
        rw [hcntA]
        exact hcount0
      have hvgtA : invVals sA u.itemId u.size =
          some (countUnits sA u.itemId u.size, countUnowned sA u.itemId u.size) := by
        unfold GTat at hGTnz
        rw [if_neg hc0A] at hGTnz
        exact hGTnz
      refine ⟨by omega, ?_⟩
      rw [hvgtA]
      have e1 : countUnits sA u.itemId u.size = ti := by omega
      have e2 : countUnowned sA u.itemId u.size = ri - 1 := by omega
      rw [e1, e2]
  · intro w0 how0 sU hok
    obtain ⟨hunits, _, _, _, _, hGTnz, _, _, _⟩ := unit_save_master hf hnd hok
    have haa : assignedAtAfter u none now = none := by
      simp [assignedAtAfter, how0]
    constructor
    · refine ⟨{ u with size := u.size, owner := none, assignedAt := assignedAtAfter u none now }, ?_, ?_, ?_⟩
      · rw [hunits]
        exact find?_byId_applyAt hnd hf rfl
      · exact haa
      · rfl
    · intro ti ri hvals
      rw [hvgt] at hvals
      injection hvals with hpair
      have hti : countUnits s u.itemId u.size = ti := congrArg Prod.fst hpair
      have hri : countUnowned s u.itemId u.size = ri := congrArg Prod.snd hpair
      have hlenU := length_filter_applyAt
        (fun u0 => { u0 with size := u.size, owner := none, assignedAt := assignedAtAfter u none now })
        hnd hf (keyU u.itemId u.size)
      simp [keyU] at hlenU
      have hlenO := length_filter_applyAt
        (fun u0 => { u0 with size := u.size, owner := none, assignedAt := assignedAtAfter u none now })
        hnd hf (fun u0 => unowned u0 && keyU u.itemId u.size u0)
      have hpu : (unowned u && keyU u.itemId u.size u) = false := by
        simp [unowned, how0]
      have hpf : (unowned { u with size := u.size, owner := none, assignedAt := assignedAtAfter u none now } && keyU u.itemId u.size { u with size := u.size, owner := none, assignedAt := assignedAtAfter u none now }) = true := by
        simp [unowned, keyU]
      simp [hpu, hpf] at hlenO
      have hcntA : countUnits sU u.itemId u.size = countUnits s u.itemId u.size := by
        unfold countUnits unitsOf
        rw [hunits]
        omega
      have hcntO : countUnowned sU u.itemId u.size =
          countUnowned s u.itemId u.size + 1 := by
        unfold countUnowned unitsOf
        rw [hunits, List.filter_filter, List.filter_filter]
        omega
      have hc0A : countUnits sU u.itemId u.size ≠ 0 := by
        rw [hcntA]
        exact hcount0
      have hvgtA : invVals sU u.itemId u.size =
          some (countUnits sU u.itemId u.size, countUnowned sU u.itemId u.size) := by
        unfold GTat at hGTnz
        rw [if_neg hc0A] at hGTnz
        exact hGTnz
      rw [hvgtA]
      have e1 : countUnits sU u.itemId u.size = ti := by omega
      have e2 : countUnowned sU u.itemId u.size = ri + 1 := by omega
      rw [e1, e2]

theorem claim_C8_witness :
    ((⟨0, 1, Size.M, "A", none, none⟩ : ApparelUnit).owner = none ∧
     unit_save cBase 0 (some 7) Size.M 5 = .ok cBaseAssigned ∧
     (∃ u2, cBaseAssigned.units.find? (byId 0) = some u2 ∧
        u2.assignedAt = some 5 ∧ u2.owner = some 7) ∧
     (∀ ti ri, invVals cBase 1 Size.M = some (ti, ri) →
        1 ≤ ri ∧ invVals cBaseAssigned 1 Size.M = some (ti, ri - 1))) ∧
    ((⟨0, 1, Size.M, "A", some 7, some 5⟩ : ApparelUnit).owner = some 7 ∧
     unit_save cBaseAssigned 0 none Size.M 9 = .ok cBaseUnassigned ∧
     (∃ u2, cBaseUnassigned.units.find? (byId 0) = some u2 ∧
        u2.assignedAt = none ∧ u2.owner = none) ∧
     (∀ ti ri, invVals cBaseAssigned 1 Size.M = some (ti, ri) →
        invVals cBaseUnassigned 1 Size.M = some (ti, ri + 1))) := by
  constructor
  · refine ⟨rfl, by decide, ?_⟩
    exact (@claim_C8 cBase 0 7 5 ⟨0, 1, Size.M, "A", none, none⟩
      (run_init_Inv [⟨1, 1⟩] [⟨1, Size.M, 2⟩] ["A", "B"] [.itemSave ⟨1, 1⟩])
      (by decide)).1 rfl cBaseAssigned (by decide)
  · refine ⟨rfl, by decide, ?_⟩
    exact (@claim_C8 cBaseAssigned 0 0 9 ⟨0, 1, Size.M, "A", some 7, some 5⟩
      (run_init_Inv [⟨1, 1⟩] [⟨1, Size.M, 2⟩] ["A", "B"]
        [.itemSave ⟨1, 1⟩, .unitSave 0 (some 7) Size.M 5])
      (by decide)).2 7 rfl cBaseUnassigned (by decide)

end SeemTo7

